import Mathlib

/-!
Control-channel servers of `src/cap10`.

Shallow embedding of `fifo-server.c` (named-pipe backend) and of `socket-server.cpp`
(datagram backend), with the properties of their specification.

The operating system is an explicit `World`: the answers the system calls will give
(`mkfifo`, `open`, the successive `read` calls), the process-wide flag `quit_app`, and the
trace of the calls the program made.  A termination signal is seen through `quit_app` only:
each `read` outcome tells whether a handler set the flag before the call returned, and the
value of the flag in the starting world stands for a signal handled before the loop.
Messages printed on stdout and stderr are left out.

Chars are natural numbers, `'\n'` is 10 and `'\0'` is 0.  The constants of
`fifo-server.h` and `socket-server.hpp` (`MAX_COMMAND_SIZE`, `QUIT_COMMAND`) are
parameters; `QUIT_COMMAND` is the list of the chars of the string literal.
-/

namespace FifoServer

/-! ## Constants -/

/-- Value of `EXIT_SUCCESS` (stdlib.h). -/
def EXIT_SUCCESS : Int := 0

/-- Value of `EXIT_FAILURE` (stdlib.h). -/
def EXIT_FAILURE : Int := 1

/-- Value of `EINTR` (errno.h). -/
def EINTR : Nat := 4

/-- Value of `EEXIST` (errno.h). -/
def EEXIST : Nat := 17

/-- Constant `const long CONTROL_POLLING_TIME = 500000000` nanoseconds, i.e. 500 ms. -/
def CONTROL_POLLING_TIME : Nat := 500000000

/-! ## Data model -/

/-- One `char` of the array `command`; `none` is a char that was never stored to
(the array is a local of the loop body and starts indeterminate). -/
abbrev Cell := Option Nat

/-- What one call `read( controlfd, &byte, 1 )` gives back. -/
inductive ReadResult where
  | got (byte : Nat) -- return_code = 1, the char read is in byte
  | zero -- return_code = 0
  | err (errno : Nat) -- return_code = -1 and errno is set
  deriving DecidableEq

/-- One `read` call as seen by the process: `signal` tells that a termination signal was
handled before the call returned (the handler sets `quit_app`), `result` is what the call
returned. -/
structure ReadEvent where
  signal : Bool
  result : ReadResult
  deriving DecidableEq

/-- Calls made by the program, in the order they are made. -/
inductive Call where
  | mkfifo
  | open_
  | fcntl_getfl (fd : Int)
  | fcntl_setfl (fd : Int)
  | setup_signals
  | start_alarm
  | stop_alarm
  | read (fd : Int)
  | nanosleep (tv_nsec : Nat)
  | strcmp (text : List Cell)
  | unlink
  | close (fd : Int)
  deriving DecidableEq

/-- The environment of the process.  `reads` lists the outcomes of the `read` calls still
to come; when it is empty the next `read` never returns (the process stays blocked). -/
structure World where
  mkfifo_ret : Int
  mkfifo_errno : Nat
  open_ret : Int
  controlfd_addr : Nat -- address of the local variable controlfd of main
  reads : List ReadEvent
  quit_app : Bool
  trace : List Call
  deriving DecidableEq

/-- Outcome of `free_control_memory`: `return_code = none` when the call never returns;
`writes` lists the indexes of `command` that were stored to, in order. -/
structure Result where
  return_code : Option Int
  command : List Cell
  writes : List Nat
  world : World
  deriving DecidableEq

/-- How a run of `main` (or of its `while` loop) ends. -/
inductive Outcome where
  | returned (exit_code : Int)
  | blocked -- blocked for ever in read()
  | out_of_fuel -- the iteration bound of the model was reached
  deriving DecidableEq

/-! ## fifo-server.c -/

/-- The chars of a NUL-terminated array before its first NUL. -/
def c_str : List Cell → List Cell
  | [] => []
  | c :: cs => if c = some 0 then [] else c :: c_str cs

/-- The array of a string literal: its chars followed by NUL. -/
def literal (s : List Nat) : List Cell :=
  s.map some ++ [some 0]

/-- The test `strcmp( a, b ) == 0`. -/
def strcmp_eq0 (a b : List Cell) : Bool :=
  c_str a == c_str b

/-- The array `char command[MAX_COMMAND_SIZE + 1]` as declared, nothing stored yet. -/
def indeterminate (MAX_COMMAND_SIZE : Nat) : List Cell :=
  List.replicate (MAX_COMMAND_SIZE + 1) none

/-- Function `make_control_shm`: the return code and the world after the call of `mkfifo`. -/
def make_control_shm (w : World) : Int × World :=
  let return_code := w.mkfifo_ret
  let w := { w with trace := w.trace ++ [Call.mkfifo] }
  if return_code < 0 then
    if w.mkfifo_errno = EEXIST then
      (EXIT_FAILURE, w)
    else
      (EXIT_FAILURE, w)
  else
    (EXIT_SUCCESS, w)

/-- Function `cleanup_control_shm`: `unlink( CONTROL_FIFO_PATH )`; its result is only
printed. -/
def cleanup_control_shm (w : World) : World :=
  { w with trace := w.trace ++ [Call.unlink] }

/-- Function `alloc_control_memory`: `controlfd` is the pointer argument, as an address;
the value stored in `*controlfd` is the second component of the result.  The source tests
the pointer itself (`controlfd < 0`), not the descriptor it points to. -/
def alloc_control_memory (controlfd : Nat) (w : World) : Int × Int × World :=
  let deref := w.open_ret
  let w := { w with trace := w.trace ++ [Call.open_] }
  if controlfd < 0 then
    (EXIT_FAILURE, deref, w)
  else
    let w := { w with trace := w.trace ++ [Call.fcntl_getfl deref, Call.fcntl_setfl deref] }
    (EXIT_SUCCESS, deref, w)

/-- The world once a call `read( fd, &byte, 1 )` has returned with outcome `ev`; `rest` are
the outcomes of the calls still to come. -/
def World.after_read (w : World) (fd : Int) (ev : ReadEvent) (rest : List ReadEvent) : World :=
  { w with reads := rest, quit_app := w.quit_app || ev.signal,
           trace := w.trace ++ [Call.read fd] }

/-- The `while (true)` loop of `free_control_memory`, by recursion on the outcomes of the
`read` calls.  `buffer` is the offset of the pointer `buffer` from `command`. -/
def read_loop (MAX_COMMAND_SIZE : Nat) (controlfd : Int) :
    List ReadEvent → World → List Cell → Nat → Nat → List Nat → Result
  | [], w, command, _, _, writes =>
    { return_code := none, command := command, writes := writes,
      world := { w with reads := [], trace := w.trace ++ [Call.read controlfd] } }
  | ev :: rest, w, command, buffer, bytes_read, writes =>
    let w := w.after_read controlfd ev rest
    match ev.result with
    | ReadResult.err errno =>
      if errno = EINTR then
        if w.quit_app then
          { return_code := some EXIT_SUCCESS, command := command.set 0 (some 0),
            writes := writes ++ [0], world := w }
        else
          read_loop MAX_COMMAND_SIZE controlfd rest w command buffer bytes_read writes
      else
        { return_code := some EXIT_FAILURE, command := command, writes := writes, world := w }
    | ReadResult.zero =>
      { return_code := some EXIT_SUCCESS, command := command.set buffer (some 0),
        writes := writes ++ [buffer], world := w }
    | ReadResult.got byte =>
      if byte = 10 then
        { return_code := some EXIT_SUCCESS, command := command.set buffer (some 0),
          writes := writes ++ [buffer], world := w }
      else if bytes_read < MAX_COMMAND_SIZE then
        read_loop MAX_COMMAND_SIZE controlfd rest w (command.set buffer (some byte))
          (buffer + 1) (bytes_read + 1) (writes ++ [buffer])
      else
        read_loop MAX_COMMAND_SIZE controlfd rest w command buffer bytes_read writes

/-- Function `free_control_memory( controlfd, command )`: reads one command from the pipe. -/
def free_control_memory (MAX_COMMAND_SIZE : Nat) (controlfd : Int) (command : List Cell)
    (w : World) : Result :=
  read_loop MAX_COMMAND_SIZE controlfd w.reads w command 0 0 []

/-- The loop `while (!quit_app)` of `main`; the first argument bounds the number of
iterations. -/
def command_loop (MAX_COMMAND_SIZE : Nat) (QUIT_COMMAND : List Nat) (controlfd : Int) :
    Nat → Int → World → Outcome × World
  | 0, _, w => (Outcome.out_of_fuel, w)
  | fuel + 1, exit_code, w =>
    if w.quit_app then
      (Outcome.returned exit_code, w)
    else
      let r := free_control_memory MAX_COMMAND_SIZE controlfd (indeterminate MAX_COMMAND_SIZE) w
      match r.return_code with
      | none => (Outcome.blocked, r.world)
      | some exit_code =>
        if exit_code ≠ 0 ∨ r.world.quit_app = true then
          (Outcome.returned exit_code, r.world)
        else if r.command[0]? = some (some 0) then
          command_loop MAX_COMMAND_SIZE QUIT_COMMAND controlfd fuel exit_code
            { r.world with trace := r.world.trace ++ [Call.nanosleep CONTROL_POLLING_TIME] }
        else
          let w1 := { r.world with trace := r.world.trace ++ [Call.strcmp (c_str r.command)] }
          if strcmp_eq0 r.command (literal QUIT_COMMAND) then
            command_loop MAX_COMMAND_SIZE QUIT_COMMAND controlfd fuel exit_code
              { w1 with quit_app := true }
          else
            command_loop MAX_COMMAND_SIZE QUIT_COMMAND controlfd fuel exit_code w1

/-- The end of `main`: `cleanup_control_shm` if the pipe was created, `close` if it was
opened. -/
def teardown (fifo_created fifo_opened : Bool) (controlfd : Int) (w : World) : World :=
  let w := if fifo_created then cleanup_control_shm w else w
  if fifo_opened then { w with trace := w.trace ++ [Call.close controlfd] } else w

/-- The third `if (! exit_code)` block of `main`: signals, alarm and the command loop.  The
loop is given one turn more than there are `read` outcomes, which it cannot use up since
every turn that goes on has made a `read`, so that `out_of_fuel` never comes out of
`main`. -/
def serve (MAX_COMMAND_SIZE : Nat) (QUIT_COMMAND : List Nat) (controlfd : Int)
    (exit_code : Int) (w : World) : Outcome × World :=
  if exit_code = 0 then
    let w := { w with trace := w.trace ++ [Call.setup_signals, Call.start_alarm] }
    match command_loop MAX_COMMAND_SIZE QUIT_COMMAND controlfd (w.reads.length + 1) exit_code w with
    | (Outcome.returned exit_code, w) =>
      (Outcome.returned exit_code, { w with trace := w.trace ++ [Call.stop_alarm] })
    | other => other
  else
    (Outcome.returned exit_code, w)

/-- Function `main` of fifo-server.c. -/
def main (MAX_COMMAND_SIZE : Nat) (QUIT_COMMAND : List Nat) (w : World) : Outcome × World :=
  let exit_code : Int := 0
  let fifo_created := false
  let fifo_opened := false
  let controlfd : Int := -1
  let (exit_code, fifo_created, w) :=
    if exit_code = 0 then
      let (exit_code, w) := make_control_shm w
      (exit_code, if exit_code = 0 then true else fifo_created, w)
    else (exit_code, fifo_created, w)
  let (exit_code, fifo_opened, controlfd, w) :=
    if exit_code = 0 then
      let (exit_code, deref, w) := alloc_control_memory w.controlfd_addr w
      (exit_code, if exit_code = 0 then true else fifo_opened, deref, w)
    else (exit_code, fifo_opened, controlfd, w)
  match serve MAX_COMMAND_SIZE QUIT_COMMAND controlfd exit_code w with
  | (Outcome.returned exit_code, w) =>
    (Outcome.returned exit_code, teardown fifo_created fifo_opened controlfd w)
  | other => other

/-! ## Vocabulary of the properties -/

/-- The `read` outcomes of a run of bytes arriving with no signal. -/
def byte_events (bytes : List Nat) : List ReadEvent :=
  bytes.map (fun b => { signal := false, result := ReadResult.got b })

/-- The `read` outcome of the delimiter `'\n'` arriving with no signal. -/
def newline : ReadEvent :=
  { signal := false, result := ReadResult.got 10 }

/-- The `read` outcome "0 bytes, no signal": no process has the other end open. -/
def idle : ReadEvent :=
  { signal := false, result := ReadResult.zero }

/-- A world for examples: `mkfifo` and `open` succeed (descriptor 3), flag unset, nothing
traced yet, and the given `read` outcomes to come. -/
def sample (reads : List ReadEvent) : World :=
  { mkfifo_ret := 0, mkfifo_errno := 0, open_ret := 3, controlfd_addr := 4096,
    reads := reads, quit_app := false, trace := [] }

/-- The calls of `n` idle turns of the command loop: a `read`, then one `nanosleep` of
`CONTROL_POLLING_TIME`. -/
def idle_polls (fd : Int) : Nat → List Call
  | 0 => []
  | n + 1 => Call.read fd :: Call.nanosleep CONTROL_POLLING_TIME :: idle_polls fd n

/-- Relation `EintrInserted es es1`: the sequence `es1` is `es` with outcomes "`read`
failed with `EINTR`, no termination signal" inserted at any positions. -/
inductive EintrInserted : List ReadEvent → List ReadEvent → Prop where
  | nil : EintrInserted [] []
  | keep (e : ReadEvent) {es es1 : List ReadEvent} :
      EintrInserted es es1 → EintrInserted (e :: es) (e :: es1)
  | insert {es es1 : List ReadEvent} :
      EintrInserted es es1 →
      EintrInserted es ({ signal := false, result := ReadResult.err EINTR } :: es1)

/-- Number of bytes of the stream delivered by a sequence of `read` outcomes. -/
def stream_bytes : List ReadEvent → Nat
  | [] => 0
  | e :: es =>
    (match e.result with
      | ReadResult.got _ => 1
      | _ => 0) + stream_bytes es

/-- The `read` outcomes of a sequence of lines, each ended by the delimiter, arriving with
no signal. -/
def line_events : List (List Nat) → List ReadEvent
  | [] => []
  | l :: ls => byte_events l ++ newline :: line_events ls

/-- The string `main` finds in `command` after a line was read: the first
`MAX_COMMAND_SIZE` bytes of the line, cut at the first NUL byte. -/
def fifo_text (MAX_COMMAND_SIZE : Nat) (line : List Nat) : List Cell :=
  c_str (literal (line.take MAX_COMMAND_SIZE))

/-- The line makes `main` set the flag: `command[0]` is not NUL and `strcmp` with
`QUIT_COMMAND` gives 0. -/
def is_quit (MAX_COMMAND_SIZE : Nat) (QUIT_COMMAND line : List Nat) : Bool :=
  fifo_text MAX_COMMAND_SIZE line ≠ [] &&
    fifo_text MAX_COMMAND_SIZE line == c_str (literal QUIT_COMMAND)

/-- The calls of one turn of the command loop on a whole line: one `read` per byte and one
for the delimiter, then `nanosleep` if the command is empty and `strcmp` otherwise. -/
def line_calls (MAX_COMMAND_SIZE : Nat) (fd : Int) (line : List Nat) : List Call :=
  List.replicate (line.length + 1) (Call.read fd) ++
    (if fifo_text MAX_COMMAND_SIZE line = [] then [Call.nanosleep CONTROL_POLLING_TIME]
     else [Call.strcmp (fifo_text MAX_COMMAND_SIZE line)])

/-- The calls of the command loop on a sequence of whole lines. -/
def session_calls (MAX_COMMAND_SIZE : Nat) (fd : Int) : List (List Nat) → List Call
  | [] => []
  | l :: ls => line_calls MAX_COMMAND_SIZE fd l ++ session_calls MAX_COMMAND_SIZE fd ls

/-- The calls `main` makes before the command loop when startup succeeds. -/
def startup (fd : Int) : List Call :=
  [Call.mkfifo, Call.open_, Call.fcntl_getfl fd, Call.fcntl_setfl fd,
   Call.setup_signals, Call.start_alarm]

/-- The world at the first test of `while (!quit_app)`. -/
def World.started (w : World) : World :=
  { w with trace := w.trace ++ startup w.open_ret }

/-- What `main` does once the loop has ended. -/
def finish (fd : Int) (r : Outcome × World) : Outcome × World :=
  match r with
  | (Outcome.returned c, w) =>
    (Outcome.returned c,
      { w with trace := w.trace ++ [Call.stop_alarm, Call.unlink, Call.close fd] })
  | other => other

/-- A `read` that failed with an error other than `EINTR`. -/
def fatal (e : ReadEvent) : Bool :=
  match e.result with
  | ReadResult.err errno => decide (errno ≠ EINTR)
  | _ => false

/-- Number of calls of `unlink` in a trace. -/
def unlinks (t : List Call) : Nat :=
  t.count Call.unlink

/-- A world for examples in which the pipe is created but `open` fails, returning -1. -/
def failed_open (reads : List ReadEvent) : World :=
  { mkfifo_ret := 0, mkfifo_errno := 0, open_ret := -1, controlfd_addr := 4096,
    reads := reads, quit_app := false, trace := [] }

end FifoServer

namespace SocketServer

/-! ## socket-server.cpp

The class `socket_t` is declared in `socket.hpp`, outside the files embedded here: what its
constructor and its member `receive` do is given by the environment. -/

/-- Value of `EXIT_SUCCESS` (cstdlib). -/
def EXIT_SUCCESS : Int := 0

/-- Value of `EXIT_FAILURE` (cstdlib). -/
def EXIT_FAILURE : Int := 1

/-- Value of `EINTR` (cerrno). -/
def EINTR : Nat := 4

/-- Value of `EADDRINUSE` (cerrno). -/
def EADDRINUSE : Nat := 98

/-- Modelled from the spec: `socket_t::receive` (socket.hpp, outside the files embedded
here) yields one whole message per call, as the peer sent it, or throws a
`std::system_error` with the given code. -/
inductive ReceiveResult where
  | message (text : List Nat)
  | system_error (code : Nat)
  deriving DecidableEq

/-- One call of `sock.receive()` as seen by the process; `signal` tells that a termination
signal was handled before the call ended (the handler sets `quit_app`). -/
structure ReceiveEvent where
  signal : Bool
  result : ReceiveResult
  deriving DecidableEq

/-- Calls made by the program, in the order they are made. -/
inductive Call where
  | socket_t
  | setup_signals
  | start_alarm
  | receive
  | stop_alarm
  deriving DecidableEq

/-- The environment of the process: `socket_error` is the code of the `std::system_error`
thrown by `socket_t{ CONTROL_SOCKET_NAME }`, if it throws; `receives` lists the outcomes of
the calls of `receive` still to come (when it is empty the next call never returns). -/
structure World where
  socket_error : Option Nat
  receives : List ReceiveEvent
  quit_app : Bool
  trace : List Call
  deriving DecidableEq

/-- How the loop `while (!quit_app)` ends. -/
inductive Flow where
  | done -- the test of the loop failed
  | thrown (code : Nat) -- a std::system_error left the loop
  | blocked -- blocked for ever in receive()
  deriving DecidableEq

/-- How a run of `protected_main` or `main` ends. -/
inductive Outcome where
  | returned (exit_code : Int)
  | thrown (code : Nat)
  | blocked
  deriving DecidableEq

/-- The loop `while (!quit_app)` of `protected_main`, by recursion on the outcomes of the
calls of `receive`.  `QUIT_COMMAND` is the text of the string literal, and
`message == QUIT_COMMAND` compares the whole message with it. -/
def receive_loop (QUIT_COMMAND : List Nat) : List ReceiveEvent → World → Flow × World
  | [], w =>
    if w.quit_app then
      (Flow.done, w)
    else
      (Flow.blocked, { w with receives := [], trace := w.trace ++ [Call.receive] })
  | ev :: rest, w =>
    if w.quit_app then
      (Flow.done, w)
    else
      let w := { w with receives := rest, quit_app := w.quit_app || ev.signal,
                        trace := w.trace ++ [Call.receive] }
      match ev.result with
      | ReceiveResult.message message =>
        if message = QUIT_COMMAND then
          receive_loop QUIT_COMMAND rest { w with quit_app := true }
        else
          receive_loop QUIT_COMMAND rest w
      | ReceiveResult.system_error code =>
        if code ≠ EINTR then
          (Flow.thrown code, w)
        else
          receive_loop QUIT_COMMAND rest w

/-- Function `protected_main` of socket-server.cpp. -/
def protected_main (QUIT_COMMAND : List Nat) (w : World) : Outcome × World :=
  let w := { w with trace := w.trace ++ [Call.socket_t] }
  match w.socket_error with
  | some code =>
    if code = EADDRINUSE then
      (Outcome.returned EXIT_FAILURE, w)
    else
      (Outcome.thrown code, w)
  | none =>
    let w := { w with trace := w.trace ++ [Call.setup_signals, Call.start_alarm] }
    match receive_loop QUIT_COMMAND w.receives w with
    | (Flow.done, w) =>
      (Outcome.returned EXIT_SUCCESS, { w with trace := w.trace ++ [Call.stop_alarm] })
    | (Flow.thrown code, w) => (Outcome.thrown code, w)
    | (Flow.blocked, w) => (Outcome.blocked, w)

/-- Function `main` of socket-server.cpp: any exception leaving `protected_main` gives
`EXIT_FAILURE`. -/
def main (QUIT_COMMAND : List Nat) (w : World) : Outcome × World :=
  match protected_main QUIT_COMMAND w with
  | (Outcome.thrown _, w) => (Outcome.returned EXIT_FAILURE, w)
  | other => other

/-- The outcomes of `receive` for a sequence of messages arriving with no signal. -/
def message_events (messages : List (List Nat)) : List ReceiveEvent :=
  messages.map (fun m => { signal := false, result := ReceiveResult.message m })

/-- A world for examples: the socket is created, flag unset, nothing traced yet. -/
def sample (receives : List ReceiveEvent) : World :=
  { socket_error := none, receives := receives, quit_app := false, trace := [] }

end SocketServer

namespace FifoServer

/-! ## Properties of fifo-server.c -/

theorem take_succ_set {α : Type} (v : α) :
    ∀ (c : List α) (k : Nat), k < c.length → (c.set k v).take (k + 1) = c.take k ++ [v]
  | [], k, h => by simp at h
  | a :: c, 0, _ => by simp
  | a :: c, k + 1, h => by
    have := take_succ_set v c k (by simpa using h)
    simp [this]

theorem read_loop_line (MAX : Nat) (fd : Int) (t : ReadEvent) (rest : List ReadEvent)
    (ht : t.signal = false) (hr : t.result = ReadResult.got 10 ∨ t.result = ReadResult.zero)
    (line : List Nat) :
    ∀ (w : World) (c : List Cell) (k : Nat) (ws : List Nat),
      (∀ b ∈ line, b ≠ 10) → k ≤ MAX → MAX < c.length →
      (read_loop MAX fd (byte_events line ++ t :: rest) w c k k ws).return_code
          = some EXIT_SUCCESS ∧
      (read_loop MAX fd (byte_events line ++ t :: rest) w c k k ws).world
          = { w with reads := rest,
                     trace := w.trace ++ List.replicate (line.length + 1) (Call.read fd) } ∧
      (read_loop MAX fd (byte_events line ++ t :: rest) w c k k ws).writes
          = ws ++ List.range' k (min line.length (MAX - k) + 1) ∧
      (read_loop MAX fd (byte_events line ++ t :: rest) w c k k ws).command.length
          = c.length ∧
      (read_loop MAX fd (byte_events line ++ t :: rest) w c k k ws).command.take
          (k + min line.length (MAX - k) + 1)
          = c.take k ++ (line.take (MAX - k)).map some ++ [some 0] := by
  induction line with
  | nil =>
    intro w c k ws _ hk hc
    have hset := take_succ_set (some (0 : Nat)) c k (by omega)
    rcases hr with hr | hr <;>
      simp [byte_events, read_loop, World.after_read, hr, ht, hset, EXIT_SUCCESS]
  | cons b l ih =>
    intro w c k ws hl hk hc
    have hb : b ≠ 10 := hl b (by simp)
    have hl2 : ∀ x ∈ l, x ≠ 10 := fun x hx => hl x (by simp [hx])
    by_cases hlt : k < MAX
    · have step : read_loop MAX fd (byte_events (b :: l) ++ t :: rest) w c k k ws
          = read_loop MAX fd (byte_events l ++ t :: rest)
              (w.after_read fd ⟨false, ReadResult.got b⟩ (byte_events l ++ t :: rest))
              (c.set k (some b)) (k + 1) (k + 1) (ws ++ [k]) := by
        simp [byte_events, read_loop, hb, hlt]
      obtain ⟨h1, h2, h3, h4, h5⟩ := ih
        (w.after_read fd ⟨false, ReadResult.got b⟩ (byte_events l ++ t :: rest))
        (c.set k (some b)) (k + 1) (ws ++ [k]) hl2 (by omega) (by simpa using hc)
      rw [step]
      refine ⟨h1, ?_, ?_, ?_, ?_⟩
      · rw [h2]; simp [World.after_read, List.replicate_succ]
      · rw [h3]
        have e : min (l.length + 1) (MAX - k) = min l.length (MAX - (k + 1)) + 1 := by omega
        simp [e, List.range'_succ]
      · rw [h4]; simp
      · have e : k + min (l.length + 1) (MAX - k) + 1
            = k + 1 + min l.length (MAX - (k + 1)) + 1 := by omega
        have hset := take_succ_set (some b) c k (by omega)
        obtain ⟨m, hm⟩ : ∃ m, MAX - k = m + 1 := ⟨MAX - k - 1, by omega⟩
        have hm2 : MAX - (k + 1) = m := by omega
        rw [List.length_cons, e, h5, hset, hm, hm2]
        simp
    · have hk2 : MAX - k = 0 := by omega
      have step : read_loop MAX fd (byte_events (b :: l) ++ t :: rest) w c k k ws
          = read_loop MAX fd (byte_events l ++ t :: rest)
              (w.after_read fd ⟨false, ReadResult.got b⟩ (byte_events l ++ t :: rest))
              c k k ws := by
        simp [byte_events, read_loop, hb, hlt]
      obtain ⟨h1, h2, h3, h4, h5⟩ := ih
        (w.after_read fd ⟨false, ReadResult.got b⟩ (byte_events l ++ t :: rest))
        c k ws hl2 hk hc
      rw [step]
      refine ⟨h1, ?_, ?_, h4, ?_⟩
      · rw [h2]; simp [World.after_read, List.replicate_succ]
      · rw [h3]; simp [hk2]
      · have e : k + min (b :: l).length (MAX - k) + 1 = k + min l.length (MAX - k) + 1 := by
          simp [hk2]
        rw [e, h5]; simp [hk2]

theorem main_mkfifo_failed (MAX : Nat) (QUIT : List Nat) (w : World) (h : w.mkfifo_ret < 0) :
    main MAX QUIT w
      = (Outcome.returned EXIT_FAILURE, { w with trace := w.trace ++ [Call.mkfifo] }) := by
  simp [main, make_control_shm, h, EXIT_FAILURE, serve, teardown]

theorem main_mkfifo_ok (MAX : Nat) (QUIT : List Nat) (w : World) (h : 0 ≤ w.mkfifo_ret) :
    main MAX QUIT w
      = finish w.open_ret
          (command_loop MAX QUIT w.open_ret (w.reads.length + 1) 0 w.started) := by
  have h2 : ¬ w.mkfifo_ret < 0 := by omega
  simp only [main, make_control_shm, h2, EXIT_SUCCESS, if_true, if_false, alloc_control_memory,
    Nat.not_lt_zero, serve, World.started, startup]
  simp only [List.append_assoc, List.singleton_append, List.cons_append, List.nil_append]
  generalize command_loop MAX QUIT w.open_ret (w.reads.length + 1) 0 _ = r
  rcases r with ⟨o, w2⟩
  cases o <;> simp [finish, teardown, cleanup_control_shm]

theorem read_loop_consumed (MAX : Nat) (fd : Int) (es : List ReadEvent) :
    ∀ (w : World) (c : List Cell) (k n : Nat) (ws : List Nat),
      ∃ consumed : List ReadEvent,
        es = consumed ++ (read_loop MAX fd es w c k n ws).world.reads ∧
        ((read_loop MAX fd es w c k n ws).return_code = none →
          (read_loop MAX fd es w c k n ws).world.reads = []) ∧
        ((read_loop MAX fd es w c k n ws).return_code ≠ none → consumed ≠ []) ∧
        ((read_loop MAX fd es w c k n ws).return_code = some EXIT_FAILURE ∨
          ((read_loop MAX fd es w c k n ws).return_code ≠ some EXIT_FAILURE ∧
           ((read_loop MAX fd es w c k n ws).return_code = some EXIT_SUCCESS ∨
            (read_loop MAX fd es w c k n ws).return_code = none))) ∧
        ((read_loop MAX fd es w c k n ws).return_code = some EXIT_FAILURE ↔
          ∃ e ∈ consumed, fatal e = true) ∧
        unlinks (read_loop MAX fd es w c k n ws).world.trace = unlinks w.trace := by
  induction es with
  | nil =>
    intro w c k n ws
    exact ⟨[], by simp [read_loop, unlinks]⟩
  | cons ev rest ih =>
    intro w c k n ws
    have hu : unlinks (w.after_read fd ev rest).trace = unlinks w.trace := by
      simp [World.after_read, unlinks]
    have hu2 : unlinks (w.trace ++ [Call.read fd]) = unlinks w.trace := by
      simp [unlinks]
    rcases hres : ev.result with b | _ | errno
    · -- a byte
      by_cases hb : b = 10
      · exact ⟨[ev], by simp [read_loop, hres, hb, fatal, EXIT_SUCCESS, EXIT_FAILURE, hu2,
          World.after_read]⟩
      · by_cases hlt : n < MAX
        · obtain ⟨cs, h1, h2, h3, h4, h5, h6⟩ :=
            ih (w.after_read fd ev rest) (c.set k (some b)) (k + 1) (n + 1) (ws ++ [k])
          refine ⟨ev :: cs, ?_⟩
          simp only [read_loop, hres, hb, hlt, if_true, if_false]
          refine ⟨by simpa using h1, h2, by simp, h4, ?_, by rw [h6, hu]⟩
          simp [h5, fatal, hres]
        · obtain ⟨cs, h1, h2, h3, h4, h5, h6⟩ :=
            ih (w.after_read fd ev rest) c k n ws
          refine ⟨ev :: cs, ?_⟩
          simp only [read_loop, hres, hb, hlt, if_true, if_false]
          refine ⟨by simpa using h1, h2, by simp, h4, ?_, by rw [h6, hu]⟩
          simp [h5, fatal, hres]
    · -- end of stream
      exact ⟨[ev], by simp [read_loop, hres, fatal, EXIT_SUCCESS, EXIT_FAILURE, hu2,
        World.after_read]⟩
    · -- an error
      by_cases he : errno = EINTR
      · by_cases hq : (w.after_read fd ev rest).quit_app = true
        · refine ⟨[ev], ?_⟩
          simp only [read_loop, hres, he, hq, if_true]
          simp [fatal, hres, he, EXIT_SUCCESS, EXIT_FAILURE, hu2, World.after_read]
        · obtain ⟨cs, h1, h2, h3, h4, h5, h6⟩ :=
            ih (w.after_read fd ev rest) c k n ws
          refine ⟨ev :: cs, ?_⟩
          simp only [read_loop, hres, he, hq, if_true, if_false, Bool.false_eq_true]
          refine ⟨by simpa using h1, h2, by simp, h4, ?_, by rw [h6, hu]⟩
          simp [h5, fatal, hres, he]
      · refine ⟨[ev], ?_⟩
        simp only [read_loop, hres, he, if_false]
        simp [fatal, hres, he, EXIT_FAILURE, hu2, World.after_read]

theorem command_loop_run (MAX : Nat) (QUIT : List Nat) (fd : Int) :
    ∀ (fuel : Nat) (w : World), w.reads.length < fuel →
      ∃ consumed : List ReadEvent,
        w.reads = consumed ++ (command_loop MAX QUIT fd fuel 0 w).2.reads ∧
        (command_loop MAX QUIT fd fuel 0 w).1 ≠ Outcome.out_of_fuel ∧
        ((command_loop MAX QUIT fd fuel 0 w).1 = Outcome.blocked →
          (command_loop MAX QUIT fd fuel 0 w).2.reads = []) ∧
        ((∃ e ∈ consumed, fatal e = true) →
          (command_loop MAX QUIT fd fuel 0 w).1 = Outcome.returned EXIT_FAILURE) ∧
        ((∀ e ∈ consumed, fatal e = false) →
          (command_loop MAX QUIT fd fuel 0 w).1 = Outcome.returned 0 ∨
          (command_loop MAX QUIT fd fuel 0 w).1 = Outcome.blocked) ∧
        unlinks (command_loop MAX QUIT fd fuel 0 w).2.trace = unlinks w.trace := by
  intro fuel
  induction fuel with
  | zero => intro w h; simp at h
  | succ fuel ih =>
    intro w hfuel
    by_cases hq : w.quit_app = true
    · exact ⟨[], by simp [command_loop, hq]⟩
    · obtain ⟨cs, h1, h2, h3, h4, h5, h6⟩ :=
        read_loop_consumed MAX fd w.reads w (indeterminate MAX) 0 0 []
      have hno : (read_loop MAX fd w.reads w (indeterminate MAX) 0 0 []).return_code
          ≠ some EXIT_FAILURE → ∀ e ∈ cs, fatal e = false := by
        intro hne e he
        by_contra hf
        exact hne (h5.mpr ⟨e, he, by simpa using hf⟩)
      rcases hrc : (read_loop MAX fd w.reads w (indeterminate MAX) 0 0 []).return_code
        with _ | code
      · -- blocked in read
        refine ⟨cs, ?_⟩
        simp only [command_loop, hq, free_control_memory, hrc, if_false, Bool.false_eq_true]
        refine ⟨h1, by simp, fun _ => h2 hrc, ?_, by simp, h6⟩
        intro hex
        rw [hrc] at h5
        exact absurd (h5.mpr hex) (by simp)
      · rw [hrc] at h4 h5 hno
        have hne : cs ≠ [] := h3 (by simp [hrc])
        rcases h4 with h4 | ⟨h4n, h4 | h4⟩
        rotate_left 2
        · simp at h4
        · -- the read failed
          have hc : code = EXIT_FAILURE := by simpa using h4
          refine ⟨cs, ?_⟩
          simp only [command_loop, hq, free_control_memory, hrc, if_false, Bool.false_eq_true]
          simp only [hc, EXIT_FAILURE]
          simp only [ne_eq, one_ne_zero, not_false_eq_true, true_or, if_true]
          exact ⟨h1, by simp, by simp, by simp [EXIT_FAILURE], fun hall => by
            obtain ⟨e, he, hf⟩ := h5.mp h4
            rw [hall e he] at hf
            exact absurd hf (by simp), h6⟩
        · -- a command was read
          have hc : code = 0 := by simpa [EXIT_SUCCESS] using h4
          have hnf := hno h4n
          have hlen : (read_loop MAX fd w.reads w (indeterminate MAX) 0 0 []).world.reads.length
              < fuel := by
            have : w.reads.length = cs.length +
                (read_loop MAX fd w.reads w (indeterminate MAX) 0 0 []).world.reads.length := by
              conv_lhs => rw [h1]
              simp
            have : 0 < cs.length := List.length_pos.mpr hne
            omega
          by_cases hq2 : (read_loop MAX fd w.reads w (indeterminate MAX) 0 0 []).world.quit_app
              = true
          · refine ⟨cs, ?_⟩
            simp only [command_loop, hq, free_control_memory, hrc, if_false, Bool.false_eq_true]
            simp only [hc, hq2]
            simp only [ne_eq, not_true_eq_false, or_true, if_true, false_or]
            exact ⟨h1, by simp, by simp, fun hex => by
              obtain ⟨e, he, hf⟩ := hex
              rw [hnf e he] at hf
              exact absurd hf (by simp), by simp, h6⟩
          · have key : ∃ w2 : World,
                command_loop MAX QUIT fd (fuel + 1) 0 w = command_loop MAX QUIT fd fuel 0 w2 ∧
                w2.reads = (read_loop MAX fd w.reads w (indeterminate MAX) 0 0 []).world.reads ∧
                unlinks w2.trace = unlinks w.trace := by
              simp only [command_loop, hq, free_control_memory, hrc, if_false,
                Bool.false_eq_true]
              simp only [hc, hq2]
              simp only [ne_eq, not_true_eq_false, or_self, if_false, Bool.false_eq_true]
              split
              · exact ⟨_, rfl, rfl, by simpa [unlinks] using h6⟩
              · split
                · exact ⟨_, rfl, rfl, by simpa [unlinks] using h6⟩
                · exact ⟨_, rfl, rfl, by simpa [unlinks] using h6⟩
            obtain ⟨w2, hstep, hw2, hu2⟩ := key
            obtain ⟨cs2, g1, g2, g3, g4, g5, g6⟩ := ih w2 (by rw [hw2]; exact hlen)
            refine ⟨cs ++ cs2, ?_⟩
            rw [hstep]
            refine ⟨?_, g2, g3, ?_, ?_, by rw [g6, hu2]⟩
            · rw [List.append_assoc, ← g1, hw2]; exact h1
            · rintro ⟨e, he, hf⟩
              rcases List.mem_append.mp he with he | he
              · rw [hnf e he] at hf
                exact absurd hf (by simp)
              · exact g4 ⟨e, he, hf⟩
            · intro hall
              exact g5 (fun e he => hall e (List.mem_append.mpr (Or.inr he)))

theorem finish_fst (fd : Int) (r : Outcome × World) : (finish fd r).1 = r.1 := by
  rcases r with ⟨o, w⟩
  cases o <;> rfl

theorem finish_reads (fd : Int) (r : Outcome × World) : (finish fd r).2.reads = r.2.reads := by
  rcases r with ⟨o, w⟩
  cases o <;> rfl

theorem finish_trace_returned (fd : Int) (r : Outcome × World) (c : Int)
    (h : r.1 = Outcome.returned c) :
    (finish fd r).2.trace = r.2.trace ++ [Call.stop_alarm, Call.unlink, Call.close fd] := by
  rcases r with ⟨o, w⟩
  cases o <;> simp_all [finish]

theorem finish_trace_blocked (fd : Int) (r : Outcome × World) (h : r.1 = Outcome.blocked) :
    (finish fd r).2.trace = r.2.trace := by
  rcases r with ⟨o, w⟩
  cases o <;> simp_all [finish]

theorem unlinks_started (w : World) : unlinks w.started.trace = unlinks w.trace := by
  simp [World.started, startup, unlinks]

/-- C3: Exit code of the Fifo server.  For every outcome of `mkfifo` and `open` and every
sequence of `read` outcomes, `main` either stays blocked in a `read` after using up all the
outcomes, or returns; it returns `EXIT_FAILURE` (non-zero) when `mkfifo` fails, whatever the
errno, and when one of the reads it made failed with an errno other than `EINTR`; and when it
returns, the code is 0 exactly if `mkfifo` succeeded and no read it made failed with an errno
other than `EINTR`. -/
theorem fifo_exit_code (MAX : Nat) (QUIT : List Nat) (w : World) :
    ∃ consumed : List ReadEvent,
      w.reads = consumed ++ (main MAX QUIT w).2.reads ∧
      (main MAX QUIT w).1 ≠ Outcome.out_of_fuel ∧
      ((main MAX QUIT w).1 = Outcome.blocked → (main MAX QUIT w).2.reads = []) ∧
      (w.mkfifo_ret < 0 → (main MAX QUIT w).1 = Outcome.returned EXIT_FAILURE) ∧
      (0 ≤ w.mkfifo_ret → (∃ e ∈ consumed, fatal e = true) →
        (main MAX QUIT w).1 = Outcome.returned EXIT_FAILURE) ∧
      (∀ c : Int, (main MAX QUIT w).1 = Outcome.returned c →
        (c = 0 ↔ 0 ≤ w.mkfifo_ret ∧ ∀ e ∈ consumed, fatal e = false)) := by
  by_cases hmk : w.mkfifo_ret < 0
  · refine ⟨[], ?_⟩
    rw [main_mkfifo_failed MAX QUIT w hmk]
    refine ⟨by simp, by simp, by simp, fun _ => rfl, fun h => by omega, ?_⟩
    intro c hc
    have : c = EXIT_FAILURE := by simpa using hc.symm
    simp [this, EXIT_FAILURE, hmk]
  · have hok : 0 ≤ w.mkfifo_ret := by omega
    obtain ⟨cs, h1, h2, h3, h4, h5, _⟩ :=
      command_loop_run MAX QUIT w.open_ret (w.reads.length + 1) w.started
        (by simp [World.started])
    refine ⟨cs, ?_⟩
    rw [main_mkfifo_ok MAX QUIT w hok, finish_fst, finish_reads]
    refine ⟨by simpa [World.started] using h1, h2, h3, fun h => absurd h hmk, fun _ => h4, ?_⟩
    intro c hc
    constructor
    · intro h0
      refine ⟨hok, fun e he => ?_⟩
      by_contra hf
      have := h4 ⟨e, he, by simpa using hf⟩
      rw [hc, h0] at this
      simp [EXIT_FAILURE] at this
    · rintro ⟨_, hall⟩
      rcases h5 hall with h | h
      · rw [hc] at h
        simpa using h
      · rw [hc] at h
        simp at h

/-- C4: Teardown on every path of the Fifo server.  For every outcome of `mkfifo`, `open`
and the reads: if `mkfifo` failed, `main` returns without any `unlink`; if it succeeded and
`main` returns (also when `open` failed or a read failed), exactly one `unlink` was made, as
the last call but the `close`; `main` fails to return only when it is blocked in a `read`
with no outcome left, and then no `unlink` was made. -/
theorem fifo_teardown (MAX : Nat) (QUIT : List Nat) (w : World) :
    (main MAX QUIT w).1 ≠ Outcome.out_of_fuel ∧
    ((main MAX QUIT w).1 = Outcome.blocked →
      (main MAX QUIT w).2.reads = [] ∧
      unlinks (main MAX QUIT w).2.trace = unlinks w.trace) ∧
    (w.mkfifo_ret < 0 →
      (main MAX QUIT w).1 = Outcome.returned EXIT_FAILURE ∧
      unlinks (main MAX QUIT w).2.trace = unlinks w.trace) ∧
    (0 ≤ w.mkfifo_ret → ∀ c : Int, (main MAX QUIT w).1 = Outcome.returned c →
      unlinks (main MAX QUIT w).2.trace = unlinks w.trace + 1 ∧
      ∃ t : List Call, unlinks t = unlinks w.trace ∧
        (main MAX QUIT w).2.trace = t ++ [Call.unlink, Call.close w.open_ret]) := by
  by_cases hmk : w.mkfifo_ret < 0
  · rw [main_mkfifo_failed MAX QUIT w hmk]
    refine ⟨by simp, by simp, fun _ => ⟨rfl, by simp [unlinks]⟩, fun h => by omega⟩
  · have hok : 0 ≤ w.mkfifo_ret := by omega
    obtain ⟨cs, _, h2, h3, _, _, h6⟩ :=
      command_loop_run MAX QUIT w.open_ret (w.reads.length + 1) w.started
        (by simp [World.started])
    rw [unlinks_started] at h6
    rw [main_mkfifo_ok MAX QUIT w hok, finish_fst, finish_reads]
    refine ⟨h2, fun hb => ⟨h3 hb, ?_⟩, fun h => absurd h hmk, fun _ c hc => ?_⟩
    · rw [finish_trace_blocked _ _ hb, h6]
    · rw [finish_trace_returned _ _ c hc]
      refine ⟨?_, (command_loop MAX QUIT w.open_ret (w.reads.length + 1) 0 w.started).2.trace
        ++ [Call.stop_alarm], ?_, by simp⟩
      · simp only [unlinks] at h6 ⊢
        simp [h6]
      · simp only [unlinks] at h6 ⊢
        simp [h6]

theorem c_str_set_nul :
    ∀ (c : List Cell) (k : Nat), k < c.length →
      (c_str (c.set k (some 0))).length ≤ k ∧
      (c.set k (some 0))[(c_str (c.set k (some 0))).length]? = some (some 0)
  | [], k, h => by simp at h
  | a :: c, 0, _ => by simp [c_str]
  | a :: c, k + 1, h => by
    obtain ⟨h1, h2⟩ := c_str_set_nul c k (by simpa using h)
    by_cases ha : a = some 0
    · simp [c_str, ha]
    · simp [c_str, ha, h1, h2]

theorem read_loop_bounds (MAX : Nat) (fd : Int) (es : List ReadEvent) :
    ∀ (w : World) (c : List Cell) (k : Nat) (ws : List Nat),
      k ≤ MAX → MAX < c.length → (∀ i ∈ ws, i ≤ MAX) →
      (∀ i ∈ (read_loop MAX fd es w c k k ws).writes, i ≤ MAX) ∧
      (read_loop MAX fd es w c k k ws).command.length = c.length ∧
      ((read_loop MAX fd es w c k k ws).return_code = some EXIT_SUCCESS →
        (c_str (read_loop MAX fd es w c k k ws).command).length ≤ MAX ∧
        (read_loop MAX fd es w c k k ws).command[
          (c_str (read_loop MAX fd es w c k k ws).command).length]? = some (some 0)) := by
  induction es with
  | nil =>
    intro w c k ws _ _ hws
    exact ⟨hws, rfl, by simp [read_loop]⟩
  | cons ev rest ih =>
    intro w c k ws hk hc hws
    have hws2 : ∀ i ∈ ws ++ [k], i ≤ MAX := by
      intro i hi
      rcases List.mem_append.mp hi with hi | hi
      · exact hws i hi
      · have : i = k := by simpa using hi
        omega
    have hws0 : ∀ i ∈ ws ++ [0], i ≤ MAX := by
      intro i hi
      rcases List.mem_append.mp hi with hi | hi
      · exact hws i hi
      · have : i = 0 := by simpa using hi
        omega
    have hnulk := c_str_set_nul c k (by omega)
    have hnul0 := c_str_set_nul c 0 (by omega)
    rcases hres : ev.result with b | _ | errno
    · by_cases hb : b = 10
      · simp only [read_loop, hres, hb, if_true]
        exact ⟨hws2, by simp, fun _ => ⟨by omega, hnulk.2⟩⟩
      · by_cases hlt : k < MAX
        · simp only [read_loop, hres, hb, hlt, if_true, if_false]
          have := ih (w.after_read fd ev rest) (c.set k (some b)) (k + 1) (ws ++ [k])
            (by omega) (by simpa using hc) hws2
          simpa using this
        · simp only [read_loop, hres, hb, hlt, if_true, if_false]
          exact ih (w.after_read fd ev rest) c k ws hk hc hws
    · simp only [read_loop, hres]
      exact ⟨hws2, by simp, fun _ => ⟨by omega, hnulk.2⟩⟩
    · by_cases he : errno = EINTR
      · by_cases hq : (w.after_read fd ev rest).quit_app = true
        · simp only [read_loop, hres, he, hq, if_true]
          exact ⟨hws0, by simp, fun _ => ⟨by omega, hnul0.2⟩⟩
        · simp only [read_loop, hres, he, hq, if_true, if_false, Bool.false_eq_true]
          exact ih (w.after_read fd ev rest) c k ws hk hc hws
      · have hne : some EXIT_FAILURE ≠ some EXIT_SUCCESS := by decide
        simp only [read_loop, hres, he, if_false]
        exact ⟨hws, trivial, fun h => absurd h hne⟩

/-- C10: The command buffer is never overrun.  For every sequence of `read` outcomes and
whatever the flag, every store of `free_control_memory` into the caller's array of
`MAX_COMMAND_SIZE + 1` chars is at an index of at most `MAX_COMMAND_SIZE`, the array keeps
its size, and when the function returns `EXIT_SUCCESS` the array holds a string of length at
most `MAX_COMMAND_SIZE` ended by a NUL. -/
theorem command_never_overrun (MAX : Nat) (fd : Int) (command : List Cell) (w : World)
    (hcommand : command.length = MAX + 1) :
    (∀ i ∈ (free_control_memory MAX fd command w).writes, i ≤ MAX) ∧
    (free_control_memory MAX fd command w).command.length = MAX + 1 ∧
    ((free_control_memory MAX fd command w).return_code = some EXIT_SUCCESS →
      (c_str (free_control_memory MAX fd command w).command).length ≤ MAX ∧
      (free_control_memory MAX fd command w).command[
        (c_str (free_control_memory MAX fd command w).command).length]? = some (some 0)) := by
  have h := read_loop_bounds MAX fd w.reads w command 0 [] (by omega) (by omega) (by simp)
  rw [hcommand] at h
  exact h

/-- C1: Fifo framing with silent truncation.  For a line of `L` bytes, none of them
`'\n'`, followed by `'\n'` and any further outcomes, one call of `free_control_memory` on an
array of `MAX_COMMAND_SIZE + 1` chars returns `EXIT_SUCCESS`, leaves in `command` the first
`min L MAX_COMMAND_SIZE` bytes of the line followed by NUL, stores nothing else, and makes
exactly `L + 1` reads, so that the outcomes left are those after the delimiter. -/
theorem fifo_line_framing (MAX : Nat) (fd : Int) (line : List Nat) (rest : List ReadEvent)
    (command : List Cell) (w : World)
    (hline : ∀ b ∈ line, b ≠ 10) (hcommand : command.length = MAX + 1)
    (hreads : w.reads = byte_events line ++ newline :: rest) :
    (free_control_memory MAX fd command w).return_code = some EXIT_SUCCESS ∧
    (free_control_memory MAX fd command w).command.take (min line.length MAX + 1)
      = (line.take MAX).map some ++ [some 0] ∧
    (free_control_memory MAX fd command w).writes = List.range (min line.length MAX + 1) ∧
    (free_control_memory MAX fd command w).world
      = { w with reads := rest,
                 trace := w.trace ++ List.replicate (line.length + 1) (Call.read fd) } := by
  obtain ⟨h1, h2, h3, _, h5⟩ := read_loop_line MAX fd newline rest rfl (Or.inl rfl) line
    w command 0 [] hline (by omega) (by omega)
  simp only [free_control_memory, hreads]
  refine ⟨h1, ?_, ?_, h2⟩
  · simpa using h5
  · rw [h3]
    simp [List.range_eq_range']

/-- Witness of C1 with the numbers of the specification: maximum 63, a line of 200 chars. -/
theorem fifo_line_framing_witness :
    (free_control_memory 63 3 (indeterminate 63)
        (sample (byte_events (List.replicate 200 65) ++ newline :: byte_events [66]))).return_code
      = some EXIT_SUCCESS ∧
    (free_control_memory 63 3 (indeterminate 63)
        (sample (byte_events (List.replicate 200 65) ++ newline :: byte_events [66]))).command.take
        (min (List.replicate 200 65).length 63 + 1)
      = ((List.replicate 200 65).take 63).map some ++ [some 0] ∧
    (free_control_memory 63 3 (indeterminate 63)
        (sample (byte_events (List.replicate 200 65) ++ newline :: byte_events [66]))).writes
      = List.range (min (List.replicate 200 65).length 63 + 1) ∧
    (free_control_memory 63 3 (indeterminate 63)
        (sample (byte_events (List.replicate 200 65) ++ newline :: byte_events [66]))).world
      = { sample (byte_events (List.replicate 200 65) ++ newline :: byte_events [66]) with
          reads := byte_events [66],
          trace := (sample (byte_events (List.replicate 200 65) ++ newline
            :: byte_events [66])).trace
            ++ List.replicate ((List.replicate 200 65).length + 1) (Call.read 3) } :=
  fifo_line_framing 63 3 (List.replicate 200 65) (byte_events [66]) (indeterminate 63)
    (sample (byte_events (List.replicate 200 65) ++ newline :: byte_events [66]))
    (by intro b hb; rw [List.eq_of_mem_replicate hb]; decide) (by simp [indeterminate]) rfl

/-- Counterexample to C7 as stated: with a maximum of 63, the line made of the delimiter
alone and the read that returns 0 give the same return code and the same array. -/
theorem empty_line_not_distinct :
    ¬ (((free_control_memory 63 3 (indeterminate 63) (sample [newline])).return_code,
        (free_control_memory 63 3 (indeterminate 63) (sample [newline])).command)
      ≠ ((free_control_memory 63 3 (indeterminate 63) (sample [idle])).return_code,
        (free_control_memory 63 3 (indeterminate 63) (sample [idle])).command)) :=
  fun h => h rfl

/-- C7 (amended): On the Fifo backend the empty line and the absence of any command give
the same result: `free_control_memory` returns `EXIT_SUCCESS` and stores a NUL in
`command[0]` both for a line made of the delimiter alone and when `read` returns 0; the two
calls differ only in the outcomes left to read. -/
theorem empty_line_same_as_no_command (MAX : Nat) (fd : Int) (command : List Cell)
    (w : World) (rest rest0 : List ReadEvent) :
    (free_control_memory MAX fd command { w with reads := newline :: rest }).return_code
      = some EXIT_SUCCESS ∧
    (free_control_memory MAX fd command { w with reads := idle :: rest0 }).return_code
      = some EXIT_SUCCESS ∧
    (free_control_memory MAX fd command { w with reads := newline :: rest }).command
      = command.set 0 (some 0) ∧
    (free_control_memory MAX fd command { w with reads := idle :: rest0 }).command
      = command.set 0 (some 0) ∧
    (free_control_memory MAX fd command { w with reads := newline :: rest }).world.reads = rest ∧
    (free_control_memory MAX fd command { w with reads := idle :: rest0 }).world.reads
      = rest0 := by
  simp [free_control_memory, read_loop, newline, idle, World.after_read]

theorem read_loop_interrupted (MAX : Nat) (fd : Int) (ev : ReadEvent) (rest : List ReadEvent)
    (hev : ev.result = ReadResult.err EINTR) (head : List Nat) :
    ∀ (w : World) (c : List Cell) (k n : Nat) (ws : List Nat),
      (∀ b ∈ head, b ≠ 10) → 0 < c.length → (w.quit_app || ev.signal) = true →
      (read_loop MAX fd (byte_events head ++ ev :: rest) w c k n ws).return_code
          = some EXIT_SUCCESS ∧
      (read_loop MAX fd (byte_events head ++ ev :: rest) w c k n ws).world
          = { w with reads := rest, quit_app := true,
                     trace := w.trace ++ List.replicate (head.length + 1) (Call.read fd) } ∧
      (read_loop MAX fd (byte_events head ++ ev :: rest) w c k n ws).command[0]?
          = some (some 0) ∧
      c_str (read_loop MAX fd (byte_events head ++ ev :: rest) w c k n ws).command = [] := by
  induction head with
  | nil =>
    intro w c k n ws _ hc hq
    obtain ⟨a, c2, rfl⟩ : ∃ a c2, c = a :: c2 := by
      cases c with
      | nil => simp at hc
      | cons a c2 => exact ⟨a, c2, rfl⟩
    simp [byte_events, read_loop, hev, World.after_read, hq, c_str]
  | cons b l ih =>
    intro w c k n ws hl hc hq
    have hb : b ≠ 10 := hl b (by simp)
    have hl2 : ∀ x ∈ l, x ≠ 10 := fun x hx => hl x (by simp [hx])
    have step : ∃ (c2 : List Cell) (k2 n2 : Nat) (ws2 : List Nat), 0 < c2.length ∧
        read_loop MAX fd (byte_events (b :: l) ++ ev :: rest) w c k n ws
          = read_loop MAX fd (byte_events l ++ ev :: rest)
              (w.after_read fd ⟨false, ReadResult.got b⟩ (byte_events l ++ ev :: rest))
              c2 k2 n2 ws2 := by
      by_cases hlt : n < MAX
      · exact ⟨c.set k (some b), k + 1, n + 1, ws ++ [k], by simpa using hc,
          by simp [byte_events, read_loop, hb, hlt]⟩
      · exact ⟨c, k, n, ws, hc, by simp [byte_events, read_loop, hb, hlt]⟩
    obtain ⟨c2, k2, n2, ws2, hc2, hstep⟩ := step
    obtain ⟨h1, h2, h3, h4⟩ := ih
      (w.after_read fd ⟨false, ReadResult.got b⟩ (byte_events l ++ ev :: rest))
      c2 k2 n2 ws2 hl2 hc2 (by simpa [World.after_read] using hq)
    rw [hstep]
    refine ⟨h1, ?_, h3, h4⟩
    rw [h2]
    simp [World.after_read, List.replicate_succ]

theorem command_loop_interrupted (MAX : Nat) (QUIT : List Nat) (fd : Int) (head : List Nat)
    (rest : List ReadEvent) (w : World) (fuel : Nat) (code : Int)
    (hhead : ∀ b ∈ head, b ≠ 10) (hq : w.quit_app = false)
    (hreads : w.reads = byte_events head ++ ⟨true, ReadResult.err EINTR⟩ :: rest) :
    command_loop MAX QUIT fd (fuel + 1) code w
      = (Outcome.returned 0,
          { w with reads := rest, quit_app := true,
                   trace := w.trace ++ List.replicate (head.length + 1) (Call.read fd) }) := by
  obtain ⟨h1, h2, _, _⟩ := read_loop_interrupted MAX fd ⟨true, ReadResult.err EINTR⟩ rest rfl
    head w (indeterminate MAX) 0 0 [] hhead (by simp [indeterminate]) (by simp)
  simp only [command_loop, hq, free_control_memory, hreads, h1, h2, if_false,
    Bool.false_eq_true, EXIT_SUCCESS]
  simp

theorem started_reads (w : World) : w.started.reads = w.reads := rfl

theorem started_quit_app (w : World) : w.started.quit_app = w.quit_app := rfl

theorem command_loop_quit (MAX : Nat) (QUIT : List Nat) (fd : Int) (fuel : Nat) (code : Int)
    (w : World) (hq : w.quit_app = true) :
    command_loop MAX QUIT fd (fuel + 1) code w = (Outcome.returned code, w) := by
  simp [command_loop, hq]

/-- C5: Termination signal at any point of the Fifo command loop.  Whatever bytes of a
line were already read, if `quit_app` is true when a `read` returns `EINTR`,
`free_control_memory` returns `EXIT_SUCCESS` at once with an empty command; the loop of
`main` then ends with no further `read`, `strcmp` or `nanosleep`, and `main` stops the alarm,
unlinks the FIFO, closes it and returns 0.  When `quit_app` is true at the top of the loop
no `read` is made at all. -/
theorem termination_signal (MAX : Nat) (QUIT : List Nat) (fd : Int) (head : List Nat)
    (sig : Bool) (rest : List ReadEvent) (command : List Cell) (w : World)
    (hhead : ∀ b ∈ head, b ≠ 10) (hcommand : command.length = MAX + 1)
    (hflag : (w.quit_app || sig) = true)
    (hreads : w.reads = byte_events head ++ ⟨sig, ReadResult.err EINTR⟩ :: rest) :
    ((free_control_memory MAX fd command w).return_code = some EXIT_SUCCESS ∧
      (free_control_memory MAX fd command w).command[0]? = some (some 0) ∧
      c_str (free_control_memory MAX fd command w).command = [] ∧
      (free_control_memory MAX fd command w).world
        = { w with reads := rest, quit_app := true,
                   trace := w.trace ++ List.replicate (head.length + 1) (Call.read fd) }) ∧
    (w.quit_app = false → ∀ (fuel : Nat) (code : Int),
      command_loop MAX QUIT fd (fuel + 1) code w
        = (Outcome.returned 0,
            { w with reads := rest, quit_app := true,
                     trace := w.trace ++ List.replicate (head.length + 1) (Call.read fd) })) ∧
    (w.quit_app = false → 0 ≤ w.mkfifo_ret →
      main MAX QUIT w
        = (Outcome.returned 0,
            { w with reads := rest, quit_app := true,
                     trace := w.trace ++ startup w.open_ret
                       ++ List.replicate (head.length + 1) (Call.read w.open_ret)
                       ++ [Call.stop_alarm, Call.unlink, Call.close w.open_ret] })) ∧
    (∀ (w0 : World) (fuel : Nat) (code : Int), w0.quit_app = true →
      command_loop MAX QUIT fd (fuel + 1) code w0 = (Outcome.returned code, w0)) ∧
    (∀ w0 : World, w0.quit_app = true → 0 ≤ w0.mkfifo_ret →
      main MAX QUIT w0
        = (Outcome.returned 0,
            { w0 with trace := w0.trace ++ startup w0.open_ret
                        ++ [Call.stop_alarm, Call.unlink, Call.close w0.open_ret] })) := by
  refine ⟨?_, ?_, ?_, ?_, ?_⟩
  · obtain ⟨h1, h2, h3, h4⟩ := read_loop_interrupted MAX fd ⟨sig, ReadResult.err EINTR⟩ rest
      rfl head w command 0 0 [] hhead (by omega) hflag
    simp only [free_control_memory, hreads]
    exact ⟨h1, h3, h4, h2⟩
  · intro hq fuel code
    have hs : sig = true := by simpa [hq] using hflag
    subst hs
    exact command_loop_interrupted MAX QUIT fd head rest w fuel code hhead hq hreads
  · intro hq hmk
    have hs : sig = true := by simpa [hq] using hflag
    subst hs
    rw [main_mkfifo_ok MAX QUIT w hmk,
      command_loop_interrupted MAX QUIT w.open_ret head rest w.started w.reads.length 0 hhead
        hq hreads]
    simp [finish, World.started]
  · intro w0 fuel code hq
    exact command_loop_quit MAX QUIT fd fuel code w0 hq
  · intro w0 hq hmk
    rw [main_mkfifo_ok MAX QUIT w0 hmk,
      command_loop_quit MAX QUIT w0.open_ret w0.reads.length 0 w0.started hq]
    simp [finish, World.started]

theorem command_loop_idle_step (MAX : Nat) (QUIT : List Nat) (fd : Int) (fuel : Nat)
    (code : Int) (rest : List ReadEvent) (w : World) (hq : w.quit_app = false)
    (hreads : w.reads = idle :: rest) :
    command_loop MAX QUIT fd (fuel + 1) code w
      = command_loop MAX QUIT fd fuel 0
          { w with reads := rest, trace := w.trace ++ idle_polls fd 1 } := by
  simp [command_loop, hq, free_control_memory, hreads, read_loop, idle, World.after_read,
    indeterminate, List.replicate_succ, idle_polls, EXIT_SUCCESS]

theorem command_loop_idle (MAX : Nat) (QUIT : List Nat) (fd : Int) (fuel : Nat)
    (rest : List ReadEvent) :
    ∀ (n : Nat) (w : World), w.quit_app = false → w.reads = List.replicate n idle ++ rest →
      command_loop MAX QUIT fd (fuel + n) 0 w
        = command_loop MAX QUIT fd fuel 0
            { w with reads := rest, trace := w.trace ++ idle_polls fd n }
  | 0, w, _, hreads => by
    have : { w with reads := rest, trace := w.trace ++ idle_polls fd 0 } = w := by
      cases w
      simp_all [idle_polls]
    rw [this, Nat.add_zero]
  | n + 1, w, hq, hreads => by
    have h1 := command_loop_idle_step MAX QUIT fd (fuel + n) 0
      (List.replicate n idle ++ rest) w hq (by simpa [List.replicate_succ] using hreads)
    have h2 := command_loop_idle MAX QUIT fd fuel rest n
      { w with reads := List.replicate n idle ++ rest, trace := w.trace ++ idle_polls fd 1 }
      hq rfl
    rw [← Nat.add_assoc, h1, h2]
    simp [idle_polls]

/-- C6: Idle Fifo is neither terminal nor a busy loop.  When the first `n` reads return 0
and no signal arrives, each of the `n` calls of `free_control_memory` returns `EXIT_SUCCESS`
with an empty command and the flag still unset, after each of them the loop of `main` is back
at its top with `exit_code` 0 having made one `read` and one `nanosleep` of
`CONTROL_POLLING_TIME` per turn, and with nothing more to read `main` is blocked in the next
`read`, its calls being the startup, `n` times `read` then `nanosleep`, and that `read`. -/
theorem idle_fifo_polls (MAX : Nat) (QUIT : List Nat) (fd : Int) (n : Nat)
    (rest : List ReadEvent) (w : World) (hq : w.quit_app = false)
    (hreads : w.reads = List.replicate n idle ++ rest) :
    (∀ i : Nat, i < n →
      (free_control_memory MAX fd (indeterminate MAX)
          { w with reads := List.replicate (n - i) idle ++ rest,
                   trace := w.trace ++ idle_polls fd i }).return_code = some EXIT_SUCCESS ∧
      c_str (free_control_memory MAX fd (indeterminate MAX)
          { w with reads := List.replicate (n - i) idle ++ rest,
                   trace := w.trace ++ idle_polls fd i }).command = [] ∧
      (free_control_memory MAX fd (indeterminate MAX)
          { w with reads := List.replicate (n - i) idle ++ rest,
                   trace := w.trace ++ idle_polls fd i }).world
        = { w with reads := List.replicate (n - i - 1) idle ++ rest,
                   trace := w.trace ++ idle_polls fd i ++ [Call.read fd] }) ∧
    (∀ i : Nat, i ≤ n → ∀ fuel : Nat,
      command_loop MAX QUIT fd (fuel + i) 0 w
        = command_loop MAX QUIT fd fuel 0
            { w with reads := List.replicate (n - i) idle ++ rest,
                     trace := w.trace ++ idle_polls fd i }) ∧
    (0 ≤ w.mkfifo_ret → rest = [] →
      main MAX QUIT w
        = (Outcome.blocked,
            { w with reads := [],
                     trace := w.trace ++ startup w.open_ret ++ idle_polls w.open_ret n
                       ++ [Call.read w.open_ret] })) ∧
    CONTROL_POLLING_TIME = 500 * 1000000 := by
  refine ⟨?_, ?_, ?_, rfl⟩
  · intro i hi
    obtain ⟨m, hm⟩ : ∃ m, n - i = m + 1 := ⟨n - i - 1, by omega⟩
    have hm2 : n - i - 1 = m := by omega
    simp [hm, hm2, List.replicate_succ, free_control_memory, read_loop, idle,
      World.after_read, hq, indeterminate, c_str]
  · intro i hi fuel
    have hsplit : w.reads = List.replicate i idle ++ (List.replicate (n - i) idle ++ rest) := by
      rw [hreads, ← List.append_assoc, ← List.replicate_add]
      congr 2
      omega
    exact command_loop_idle MAX QUIT fd fuel (List.replicate (n - i) idle ++ rest) i w hq hsplit
  · intro hmk hrest
    subst hrest
    have hlen : w.reads.length + 1 = 1 + n := by
      rw [hreads]
      simp
      omega
    rw [main_mkfifo_ok MAX QUIT w hmk, hlen,
      command_loop_idle MAX QUIT w.open_ret 1 [] n w.started hq
        (by simpa [World.started] using hreads)]
    simp [command_loop, World.started, hq, free_control_memory, read_loop, finish]

theorem stream_bytes_inserted {es es1 : List ReadEvent} (h : EintrInserted es es1) :
    stream_bytes es1 = stream_bytes es := by
  induction h with
  | nil => rfl
  | keep e _ ih => simp [stream_bytes, ih]
  | insert _ ih => simp [stream_bytes, ih]

theorem read_loop_inserted (MAX : Nat) (fd : Int) {es es1 : List ReadEvent}
    (h : EintrInserted es es1) :
    (∀ e ∈ es, e.signal = false) →
    ∀ (w w1 : World) (c : List Cell) (k n : Nat) (ws : List Nat),
      w.quit_app = false → w1.quit_app = false →
      (read_loop MAX fd es1 w1 c k n ws).return_code
        = (read_loop MAX fd es w c k n ws).return_code ∧
      (read_loop MAX fd es1 w1 c k n ws).command = (read_loop MAX fd es w c k n ws).command ∧
      (read_loop MAX fd es1 w1 c k n ws).writes = (read_loop MAX fd es w c k n ws).writes ∧
      (read_loop MAX fd es1 w1 c k n ws).world.quit_app = false ∧
      (read_loop MAX fd es w c k n ws).world.quit_app = false ∧
      EintrInserted (read_loop MAX fd es w c k n ws).world.reads
        (read_loop MAX fd es1 w1 c k n ws).world.reads := by
  induction h with
  | nil =>
    intro _ w w1 c k n ws hq hq1
    simp [read_loop, hq, hq1, EintrInserted.nil]
  | @keep e es es1 hins ih =>
    intro hsig w w1 c k n ws hq hq1
    have he : e.signal = false := hsig e (by simp)
    have hsig2 : ∀ x ∈ es, x.signal = false := fun x hx => hsig x (by simp [hx])
    have hqa : (w.after_read fd e es).quit_app = false := by simp [World.after_read, hq, he]
    have hqa1 : (w1.after_read fd e es1).quit_app = false := by
      simp [World.after_read, hq1, he]
    have hra : (w.after_read fd e es).reads = es := rfl
    have hra1 : (w1.after_read fd e es1).reads = es1 := rfl
    rcases hres : e.result with b | _ | errno
    · by_cases hb : b = 10
      · simp only [read_loop, hres, hb, if_true]
        exact ⟨trivial, trivial, trivial, hqa1, hqa, hins⟩
      · by_cases hlt : n < MAX
        · simp only [read_loop, hres, hb, hlt, if_true, if_false]
          exact ih hsig2 _ _ _ _ _ _ hqa hqa1
        · simp only [read_loop, hres, hb, hlt, if_true, if_false]
          exact ih hsig2 _ _ _ _ _ _ hqa hqa1
    · simp only [read_loop, hres]
      exact ⟨trivial, trivial, trivial, hqa1, hqa, hins⟩
    · by_cases hen : errno = EINTR
      · simp only [read_loop, hres, hen, hqa, hqa1, if_true, if_false, Bool.false_eq_true]
        exact ih hsig2 _ _ _ _ _ _ hqa hqa1
      · simp only [read_loop, hres, hen, if_false]
        exact ⟨trivial, trivial, trivial, hqa1, hqa, hins⟩
  | @insert es es1 hins ih =>
    intro hsig w w1 c k n ws hq hq1
    have hqa1 : (w1.after_read fd ⟨false, ReadResult.err EINTR⟩ es1).quit_app = false := by
      simp [World.after_read, hq1]
    have step : read_loop MAX fd (⟨false, ReadResult.err EINTR⟩ :: es1) w1 c k n ws
        = read_loop MAX fd es1 (w1.after_read fd ⟨false, ReadResult.err EINTR⟩ es1)
            c k n ws := by
      simp only [read_loop, hqa1, if_true, if_false, Bool.false_eq_true]
    rw [step]
    exact ih hsig w _ c k n ws hq hqa1

/-- C8: An interrupted read with the shutdown flag unset is retried transparently.  With
`quit_app` false and no termination signal during the reads, inserting any number of
`EINTR` outcomes at any positions of a sequence of `read` outcomes leaves the result of
`free_control_memory` unchanged: same return code (or the same absence of return), same
chars in `command`, same stores, flag still unset, and the same number of stream bytes
consumed. -/
theorem eintr_retry_transparent (MAX : Nat) (fd : Int) (es es1 : List ReadEvent)
    (command : List Cell) (w : World)
    (hins : EintrInserted es es1) (hq : w.quit_app = false)
    (hsig : ∀ e ∈ es, e.signal = false) :
    (free_control_memory MAX fd command { w with reads := es1 }).return_code
      = (free_control_memory MAX fd command { w with reads := es }).return_code ∧
    (free_control_memory MAX fd command { w with reads := es1 }).command
      = (free_control_memory MAX fd command { w with reads := es }).command ∧
    (free_control_memory MAX fd command { w with reads := es1 }).writes
      = (free_control_memory MAX fd command { w with reads := es }).writes ∧
    (free_control_memory MAX fd command { w with reads := es1 }).world.quit_app = false ∧
    stream_bytes es1
        - stream_bytes (free_control_memory MAX fd command { w with reads := es1 }).world.reads
      = stream_bytes es
        - stream_bytes (free_control_memory MAX fd command { w with reads := es }).world.reads := by
  obtain ⟨h1, h2, h3, h4, _, h6⟩ := read_loop_inserted MAX fd hins hsig
    { w with reads := es } { w with reads := es1 } command 0 0 [] hq hq
  simp only [free_control_memory]
  refine ⟨h1, h2, h3, h4, ?_⟩
  rw [stream_bytes_inserted hins, stream_bytes_inserted h6]

theorem c_str_append_nul (junk : List Cell) :
    ∀ p : List Cell, c_str (p ++ some 0 :: junk) = c_str (p ++ [some 0])
  | [] => by simp [c_str]
  | a :: p => by
    by_cases ha : a = some 0
    · simp [c_str, ha]
    · simp [c_str, ha, c_str_append_nul junk p]

theorem c_str_of_take (c p : List Cell) (m : Nat) (h : c.take m = p ++ [some 0]) :
    c_str c = c_str (p ++ [some 0]) := by
  have hc : c = (p ++ [some 0]) ++ c.drop m := by
    rw [← h, List.take_append_drop]
  rw [hc, List.append_assoc, List.singleton_append, c_str_append_nul]

theorem c_str_eq_nil_iff (cmd : List Cell) (h : cmd ≠ []) :
    c_str cmd = [] ↔ cmd[0]? = some (some 0) := by
  cases cmd with
  | nil => exact absurd rfl h
  | cons a t =>
    by_cases ha : a = some 0 <;> simp [c_str, ha]

theorem free_control_memory_line (MAX : Nat) (fd : Int) (line : List Nat)
    (rest : List ReadEvent) (w : World) (hline : ∀ b ∈ line, b ≠ 10)
    (hreads : w.reads = byte_events line ++ newline :: rest) :
    (free_control_memory MAX fd (indeterminate MAX) w).return_code = some EXIT_SUCCESS ∧
    c_str (free_control_memory MAX fd (indeterminate MAX) w).command = fifo_text MAX line ∧
    ((free_control_memory MAX fd (indeterminate MAX) w).command[0]? = some (some 0)
      ↔ fifo_text MAX line = []) ∧
    (free_control_memory MAX fd (indeterminate MAX) w).world
      = { w with reads := rest,
                 trace := w.trace ++ List.replicate (line.length + 1) (Call.read fd) } := by
  obtain ⟨h1, h2, _, h4, h5⟩ := read_loop_line MAX fd newline rest rfl (Or.inl rfl) line
    w (indeterminate MAX) 0 [] hline (by omega) (by simp [indeterminate])
  simp only [free_control_memory, hreads]
  have htext : c_str (read_loop MAX fd (byte_events line ++ newline :: rest) w
      (indeterminate MAX) 0 0 []).command = fifo_text MAX line := by
    rw [c_str_of_take _ _ _ h5]
    simp [fifo_text, literal]
  have hne : (read_loop MAX fd (byte_events line ++ newline :: rest) w
      (indeterminate MAX) 0 0 []).command ≠ [] := by
    intro h0
    rw [h0] at h4
    simp [indeterminate] at h4
  refine ⟨h1, htext, ?_, h2⟩
  rw [← c_str_eq_nil_iff _ hne, htext]

theorem command_loop_line (MAX : Nat) (QUIT : List Nat) (fd : Int) (line : List Nat)
    (rest : List ReadEvent) (w : World) (fuel : Nat) (code : Int)
    (hline : ∀ b ∈ line, b ≠ 10) (hq : w.quit_app = false)
    (hreads : w.reads = byte_events line ++ newline :: rest) :
    command_loop MAX QUIT fd (fuel + 1) code w
      = command_loop MAX QUIT fd fuel 0
          { w with reads := rest, quit_app := is_quit MAX QUIT line,
                   trace := w.trace ++ line_calls MAX fd line } := by
  obtain ⟨h1, h2, h3, h4⟩ := free_control_memory_line MAX fd line rest w hline hreads
  simp only [command_loop, hq, h1, h4, if_false, Bool.false_eq_true, EXIT_SUCCESS]
  simp only [ne_eq, not_true_eq_false, or_self, if_false]
  by_cases hempty : fifo_text MAX line = []
  · have h0 := h3.mpr hempty
    simp [h0, hempty, line_calls, is_quit, hq]
  · have h0 : ¬ (free_control_memory MAX fd (indeterminate MAX) w).command[0]?
        = some (some 0) := fun h => hempty (h3.mp h)
    simp only [h0, if_false, strcmp_eq0, h2]
    have hcalls : line_calls MAX fd line
        = List.replicate (line.length + 1) (Call.read fd)
          ++ [Call.strcmp (fifo_text MAX line)] := by
      simp [line_calls, hempty]
    by_cases hquit : fifo_text MAX line = c_str (literal QUIT)
    · have hisq : is_quit MAX QUIT line = true := by
        simp only [is_quit, Bool.and_eq_true, bne_iff_ne, ne_eq, beq_iff_eq]
        exact ⟨by simpa using hempty, hquit⟩
      rw [hcalls, hisq]
      simp [hquit]
    · have hisq : is_quit MAX QUIT line = false := by
        simp [is_quit, hquit]
      rw [hcalls, hisq]
      simp [hquit, hq]

theorem command_loop_session (MAX : Nat) (QUIT : List Nat) (fd : Int) (rest : List ReadEvent) :
    ∀ (lines : List (List Nat)) (w : World) (fuel : Nat),
      (∀ l ∈ lines, (∀ b ∈ l, b ≠ 10) ∧ is_quit MAX QUIT l = false) →
      w.quit_app = false → w.reads = line_events lines ++ rest →
      command_loop MAX QUIT fd (fuel + lines.length) 0 w
        = command_loop MAX QUIT fd fuel 0
            { w with reads := rest, trace := w.trace ++ session_calls MAX fd lines }
  | [], w, fuel, _, _, hreads => by
    have : { w with reads := rest, trace := w.trace ++ session_calls MAX fd [] } = w := by
      cases w
      simp_all [session_calls, line_events]
    rw [this, List.length_nil, Nat.add_zero]
  | l :: ls, w, fuel, hl, hq, hreads => by
    have hl1 := hl l (by simp)
    have h1 := command_loop_line MAX QUIT fd l (line_events ls ++ rest) w
      (fuel + ls.length) 0 hl1.1 hq (by simpa [line_events] using hreads)
    have h2 := command_loop_session MAX QUIT fd rest ls
      { w with reads := line_events ls ++ rest, quit_app := is_quit MAX QUIT l,
               trace := w.trace ++ line_calls MAX fd l } fuel
      (fun x hx => hl x (by simp [hx])) hl1.2 rfl
    rw [List.length_cons, ← Nat.add_assoc, h1, h2]
    simp [session_calls, hl1.2, hq]

theorem line_events_length :
    ∀ lines : List (List Nat), lines.length ≤ (line_events lines).length
  | [] => by simp
  | l :: ls => by
    have := line_events_length ls
    simp [line_events]
    omega

theorem line_events_append (ls ms : List (List Nat)) :
    line_events (ls ++ ms) = line_events ls ++ line_events ms := by
  induction ls with
  | nil => rfl
  | cons l ls ih => simp [line_events, ih]

theorem session_calls_append (MAX : Nat) (fd : Int) (ls ms : List (List Nat)) :
    session_calls MAX fd (ls ++ ms) = session_calls MAX fd ls ++ session_calls MAX fd ms := by
  induction ls with
  | nil => rfl
  | cons l ls ih => simp [session_calls, ih]

theorem c_str_literal : ∀ l : List Nat, 0 ∉ l → c_str (literal l) = l.map some
  | [], _ => by simp [literal, c_str]
  | a :: l, h => by
    have ha : a ≠ 0 := fun h0 => h (by simp [h0])
    have hl : 0 ∉ l := fun h0 => h (by simp [h0])
    have ih := c_str_literal l hl
    simp only [literal] at ih ⊢
    simp [c_str, ha, ih]

theorem is_quit_iff (MAX : Nat) (QUIT l : List Nat) (hlen : l.length ≤ MAX) (hl : 0 ∉ l)
    (hne : QUIT ≠ []) (hQ : 0 ∉ QUIT) : is_quit MAX QUIT l = true ↔ l = QUIT := by
  have htext : fifo_text MAX l = l.map some := by
    rw [fifo_text, List.take_of_length_le hlen, c_str_literal l hl]
  have hinj : Function.Injective (some : Nat → Option Nat) := fun a b h => by simpa using h
  simp only [is_quit, Bool.and_eq_true, decide_eq_true_eq, beq_iff_eq, htext,
    c_str_literal QUIT hQ]
  constructor
  · rintro ⟨_, h⟩
    exact List.map_injective_iff.mpr hinj h
  · rintro rfl
    exact ⟨by simpa using hne, rfl⟩

theorem fifo_main_session (MAX : Nat) (QUIT : List Nat) (before : List (List Nat)) (q : List Nat)
    (rest : List ReadEvent) (w : World)
    (hbefore : ∀ l ∈ before, (∀ b ∈ l, b ≠ 10) ∧ is_quit MAX QUIT l = false)
    (hq : (∀ b ∈ q, b ≠ 10) ∧ is_quit MAX QUIT q = true)
    (hflag : w.quit_app = false) (hmk : 0 ≤ w.mkfifo_ret)
    (hreads : w.reads = line_events (before ++ [q]) ++ rest) :
    main MAX QUIT w
      = (Outcome.returned 0,
          { w with reads := rest, quit_app := true,
                   trace := w.trace ++ startup w.open_ret
                     ++ session_calls MAX w.open_ret (before ++ [q])
                     ++ [Call.stop_alarm, Call.unlink, Call.close w.open_ret] }) := by
  have hlen := line_events_length (before ++ [q])
  obtain ⟨f, hf⟩ : ∃ f, w.reads.length + 1 = (f + 1 + 1) + before.length := by
    refine ⟨w.reads.length - before.length - 1, ?_⟩
    rw [hreads]
    simp only [List.length_append, List.length_singleton] at hlen ⊢
    omega
  have hsplit : w.started.reads = line_events before ++ (byte_events q ++ newline :: rest) := by
    rw [started_reads, hreads, line_events_append]
    simp [line_events]
  have h1 := command_loop_session MAX QUIT w.open_ret (byte_events q ++ newline :: rest)
    before w.started (f + 1 + 1) hbefore hflag hsplit
  have h2 := command_loop_line MAX QUIT w.open_ret q rest
    { w.started with reads := byte_events q ++ newline :: rest,
                     trace := w.started.trace ++ session_calls MAX w.open_ret before }
    (f + 1) 0 hq.1 hflag rfl
  rw [main_mkfifo_ok MAX QUIT w hmk, hf, h1, h2, command_loop_quit MAX QUIT w.open_ret f 0 _ hq.2]
  simp [finish, World.started, session_calls_append, session_calls, hq.2]

/-- C9, the code at the failing input: whatever `open` returned, `alloc_control_memory`
returns `EXIT_SUCCESS`, because the test is made on the pointer; and when `open` returned -1
(the later `read` failing with `EBADF`, errno 9) `main` takes the descriptor as opened,
enters the loop, reads from -1 and closes -1. -/
theorem open_failure_not_detected :
    (∀ (controlfd : Nat) (w : World), (alloc_control_memory controlfd w).1 = EXIT_SUCCESS) ∧
    main 63 [81, 85, 73, 84] (failed_open [⟨false, ReadResult.err 9⟩])
      = (Outcome.returned EXIT_FAILURE,
          { failed_open [] with
            trace := [Call.mkfifo, Call.open_, Call.fcntl_getfl (-1), Call.fcntl_setfl (-1),
                      Call.setup_signals, Call.start_alarm, Call.read (-1), Call.stop_alarm,
                      Call.unlink, Call.close (-1)] }) := by
  refine ⟨fun controlfd w => ?_, rfl⟩
  simp [alloc_control_memory]

/-- Witness of C3: `mkfifo` succeeds and the first `read` fails with `EBADF`. -/
theorem fifo_exit_code_witness :
    ∃ consumed : List ReadEvent,
      (sample [⟨false, ReadResult.err 9⟩]).reads
        = consumed ++ (main 63 [81, 85, 73, 84] (sample [⟨false, ReadResult.err 9⟩])).2.reads ∧
      (main 63 [81, 85, 73, 84] (sample [⟨false, ReadResult.err 9⟩])).1
        ≠ Outcome.out_of_fuel ∧
      ((main 63 [81, 85, 73, 84] (sample [⟨false, ReadResult.err 9⟩])).1 = Outcome.blocked →
        (main 63 [81, 85, 73, 84] (sample [⟨false, ReadResult.err 9⟩])).2.reads = []) ∧
      ((sample [⟨false, ReadResult.err 9⟩]).mkfifo_ret < 0 →
        (main 63 [81, 85, 73, 84] (sample [⟨false, ReadResult.err 9⟩])).1
          = Outcome.returned EXIT_FAILURE) ∧
      (0 ≤ (sample [⟨false, ReadResult.err 9⟩]).mkfifo_ret →
        (∃ e ∈ consumed, fatal e = true) →
        (main 63 [81, 85, 73, 84] (sample [⟨false, ReadResult.err 9⟩])).1
          = Outcome.returned EXIT_FAILURE) ∧
      (∀ c : Int,
        (main 63 [81, 85, 73, 84] (sample [⟨false, ReadResult.err 9⟩])).1
          = Outcome.returned c →
        (c = 0 ↔ 0 ≤ (sample [⟨false, ReadResult.err 9⟩]).mkfifo_ret ∧
          ∀ e ∈ consumed, fatal e = false)) :=
  fifo_exit_code 63 [81, 85, 73, 84] (sample [⟨false, ReadResult.err 9⟩])

/-- Witness of C4: the pipe is created, `open` fails, the `read` fails, and the pipe is
unlinked once before `main` returns. -/
theorem fifo_teardown_witness :
    0 ≤ (failed_open [⟨false, ReadResult.err 9⟩]).mkfifo_ret ∧
    (main 63 [81, 85, 73, 84] (failed_open [⟨false, ReadResult.err 9⟩])).1
      = Outcome.returned 1 ∧
    unlinks (main 63 [81, 85, 73, 84] (failed_open [⟨false, ReadResult.err 9⟩])).2.trace
      = unlinks (failed_open [⟨false, ReadResult.err 9⟩]).trace + 1 :=
  ⟨by decide, rfl,
    ((fifo_teardown 63 [81, 85, 73, 84] (failed_open [⟨false, ReadResult.err 9⟩])).2.2.2
      (by decide) 1 rfl).1⟩

/-- Witness of C5: two bytes of a line were read when the signal interrupts the `read`. -/
theorem termination_signal_witness :
    (free_control_memory 63 3 (indeterminate 63)
        (sample (byte_events [81, 85] ++ ⟨true, ReadResult.err EINTR⟩
          :: byte_events [73]))).return_code = some EXIT_SUCCESS ∧
    c_str (free_control_memory 63 3 (indeterminate 63)
        (sample (byte_events [81, 85] ++ ⟨true, ReadResult.err EINTR⟩
          :: byte_events [73]))).command = [] ∧
    main 63 [81, 85, 73, 84]
        (sample (byte_events [81, 85] ++ ⟨true, ReadResult.err EINTR⟩ :: byte_events [73]))
      = (Outcome.returned 0,
          { sample (byte_events [81, 85] ++ ⟨true, ReadResult.err EINTR⟩ :: byte_events [73])
            with
            reads := byte_events [73], quit_app := true,
            trace := (sample (byte_events [81, 85] ++ ⟨true, ReadResult.err EINTR⟩
                  :: byte_events [73])).trace
                ++ startup (sample (byte_events [81, 85] ++ ⟨true, ReadResult.err EINTR⟩
                  :: byte_events [73])).open_ret
                ++ List.replicate ([81, 85].length + 1)
                  (Call.read (sample (byte_events [81, 85] ++ ⟨true, ReadResult.err EINTR⟩
                  :: byte_events [73])).open_ret)
                ++ [Call.stop_alarm, Call.unlink,
                    Call.close (sample (byte_events [81, 85]
                      ++ ⟨true, ReadResult.err EINTR⟩ :: byte_events [73])).open_ret] }) :=
  ⟨(termination_signal 63 [81, 85, 73, 84] 3 [81, 85] true (byte_events [73])
      (indeterminate 63)
      (sample (byte_events [81, 85] ++ ⟨true, ReadResult.err EINTR⟩ :: byte_events [73]))
      (by decide) rfl rfl rfl).1.1,
   (termination_signal 63 [81, 85, 73, 84] 3 [81, 85] true (byte_events [73])
      (indeterminate 63)
      (sample (byte_events [81, 85] ++ ⟨true, ReadResult.err EINTR⟩ :: byte_events [73]))
      (by decide) rfl rfl rfl).1.2.2.1,
   (termination_signal 63 [81, 85, 73, 84] 3 [81, 85] true (byte_events [73])
      (indeterminate 63)
      (sample (byte_events [81, 85] ++ ⟨true, ReadResult.err EINTR⟩ :: byte_events [73]))
      (by decide) rfl rfl rfl).2.2.1 rfl (by decide)⟩

/-- Witness of C6: three idle polls and nothing more to read. -/
theorem idle_fifo_polls_witness :
    main 63 [81, 85, 73, 84] (sample (List.replicate 3 idle ++ []))
      = (Outcome.blocked,
          { sample (List.replicate 3 idle ++ []) with
            reads := [],
            trace := (sample (List.replicate 3 idle ++ [])).trace
              ++ startup (sample (List.replicate 3 idle ++ [])).open_ret
              ++ idle_polls (sample (List.replicate 3 idle ++ [])).open_ret 3
              ++ [Call.read (sample (List.replicate 3 idle ++ [])).open_ret] }) :=
  (idle_fifo_polls 63 [81, 85, 73, 84] 3 3 [] (sample (List.replicate 3 idle ++ []))
    rfl rfl).2.2.1 (by decide) rfl

/-- Witness of C8: the line `Q` with an interrupted `read` before the byte and another
before the delimiter. -/
theorem eintr_retry_transparent_witness :
    (free_control_memory 63 3 (indeterminate 63)
        { sample [] with
          reads := [⟨false, ReadResult.err EINTR⟩, ⟨false, ReadResult.got 81⟩,
                    ⟨false, ReadResult.err EINTR⟩, newline] }).return_code
      = (free_control_memory 63 3 (indeterminate 63)
        { sample [] with reads := [⟨false, ReadResult.got 81⟩, newline] }).return_code ∧
    (free_control_memory 63 3 (indeterminate 63)
        { sample [] with
          reads := [⟨false, ReadResult.err EINTR⟩, ⟨false, ReadResult.got 81⟩,
                    ⟨false, ReadResult.err EINTR⟩, newline] }).command
      = (free_control_memory 63 3 (indeterminate 63)
        { sample [] with reads := [⟨false, ReadResult.got 81⟩, newline] }).command :=
  ⟨(eintr_retry_transparent 63 3 [⟨false, ReadResult.got 81⟩, newline]
      [⟨false, ReadResult.err EINTR⟩, ⟨false, ReadResult.got 81⟩,
        ⟨false, ReadResult.err EINTR⟩, newline]
      (indeterminate 63) (sample [])
      (EintrInserted.insert (EintrInserted.keep _ (EintrInserted.insert
        (EintrInserted.keep _ EintrInserted.nil))))
      rfl (by decide)).1,
   (eintr_retry_transparent 63 3 [⟨false, ReadResult.got 81⟩, newline]
      [⟨false, ReadResult.err EINTR⟩, ⟨false, ReadResult.got 81⟩,
        ⟨false, ReadResult.err EINTR⟩, newline]
      (indeterminate 63) (sample [])
      (EintrInserted.insert (EintrInserted.keep _ (EintrInserted.insert
        (EintrInserted.keep _ EintrInserted.nil))))
      rfl (by decide)).2.1⟩

/-- Witness of C10: a line of five chars read into an array of 3 + 1 chars. -/
theorem command_never_overrun_witness :
    (indeterminate 3).length = 3 + 1 ∧
    (∀ i ∈ (free_control_memory 3 3 (indeterminate 3)
        (sample (byte_events [65, 66, 67, 68, 69] ++ [newline]))).writes, i ≤ 3) ∧
    (free_control_memory 3 3 (indeterminate 3)
        (sample (byte_events [65, 66, 67, 68, 69] ++ [newline]))).command.length = 3 + 1 :=
  ⟨rfl,
    (command_never_overrun 3 3 (indeterminate 3)
      (sample (byte_events [65, 66, 67, 68, 69] ++ [newline])) rfl).1,
    (command_never_overrun 3 3 (indeterminate 3)
      (sample (byte_events [65, 66, 67, 68, 69] ++ [newline])) rfl).2.1⟩

end FifoServer

namespace SocketServer

theorem receive_loop_quit (QUIT : List Nat) (es : List ReceiveEvent) (w : World)
    (hq : w.quit_app = true) : receive_loop QUIT es w = (Flow.done, w) := by
  cases es <;> simp [receive_loop, hq]

theorem receive_loop_message (QUIT m : List Nat) (rest : List ReceiveEvent) (w : World)
    (hq : w.quit_app = false) :
    receive_loop QUIT (⟨false, ReceiveResult.message m⟩ :: rest) w
      = receive_loop QUIT rest
          { w with receives := rest, quit_app := decide (m = QUIT),
                   trace := w.trace ++ [Call.receive] } := by
  by_cases hm : m = QUIT <;> simp [receive_loop, hq, hm]

theorem receive_loop_session (QUIT : List Nat) (rest : List ReceiveEvent) :
    ∀ (messages : List (List Nat)) (w : World),
      (∀ m ∈ messages, m ≠ QUIT) → w.quit_app = false →
      receive_loop QUIT (message_events (messages ++ [QUIT]) ++ rest) w
        = (Flow.done,
            { w with receives := rest, quit_app := true,
                     trace := w.trace
                       ++ List.replicate (messages.length + 1) Call.receive })
  | [], w, _, hq => by
    have e : message_events ([] ++ [QUIT]) ++ rest
        = ⟨false, ReceiveResult.message QUIT⟩ :: rest := rfl
    rw [e, receive_loop_message QUIT QUIT rest w hq, receive_loop_quit QUIT rest _ (by simp)]
    simp
  | m :: ms, w, hm, hq => by
    have hne : m ≠ QUIT := hm m (by simp)
    have e : message_events (m :: ms ++ [QUIT]) ++ rest
        = ⟨false, ReceiveResult.message m⟩ :: (message_events (ms ++ [QUIT]) ++ rest) := rfl
    rw [e, receive_loop_message QUIT m _ w hq,
      receive_loop_session QUIT rest ms _ (fun x hx => hm x (by simp [hx])) (by simp [hne])]
    simp [List.replicate_succ, hne]

theorem socket_main_session (QUIT : List Nat) (rest : List ReceiveEvent)
    (messages : List (List Nat)) (w : World)
    (hm : ∀ m ∈ messages, m ≠ QUIT) (hq : w.quit_app = false) (hs : w.socket_error = none)
    (hr : w.receives = message_events (messages ++ [QUIT]) ++ rest) :
    main QUIT w
      = (Outcome.returned 0,
          { w with receives := rest, quit_app := true,
                   trace := w.trace ++ [Call.socket_t, Call.setup_signals, Call.start_alarm]
                     ++ List.replicate (messages.length + 1) Call.receive
                     ++ [Call.stop_alarm] }) := by
  obtain ⟨se, rc, q, t⟩ := w
  simp only at hq hs hr
  subst hq hs hr
  have h := receive_loop_session QUIT rest messages
    { socket_error := none, receives := message_events (messages ++ [QUIT]) ++ rest,
      quit_app := false,
      trace := t ++ [Call.socket_t] ++ [Call.setup_signals, Call.start_alarm] }
    hm rfl
  simp only [main, protected_main, h]
  simp [EXIT_SUCCESS]

end SocketServer

/-! ## Both backends -/

/-- Counterexample to C2 as stated: with a maximum of 63 and the sentinel `QUIT`, the line
`QUIT\0X` is not the sentinel, yet the server sets the flag on it and returns 0, the line
`QUIT` that follows being left unread. -/
theorem quit_on_inexact_line :
    [81, 85, 73, 84, 0, 88] ≠ [81, 85, 73, 84] ∧
    (FifoServer.main 63 [81, 85, 73, 84]
      (FifoServer.sample
        (FifoServer.line_events [[81, 85, 73, 84, 0, 88], [81, 85, 73, 84]]))).1
      = FifoServer.Outcome.returned 0 ∧
    (FifoServer.main 63 [81, 85, 73, 84]
      (FifoServer.sample
        (FifoServer.line_events [[81, 85, 73, 84, 0, 88], [81, 85, 73, 84]]))).2.quit_app
      = true ∧
    (FifoServer.main 63 [81, 85, 73, 84]
      (FifoServer.sample
        (FifoServer.line_events [[81, 85, 73, 84, 0, 88], [81, 85, 73, 84]]))).2.reads
      = FifoServer.line_events [[81, 85, 73, 84]] := by
  refine ⟨by decide, ?_, ?_, ?_⟩ <;> rfl

/-- C2 (amended): Sentinel recognition over a whole session, no signal arriving.  Fifo:
for lines of bytes other than the delimiter, the loop sets the flag at the first line whose
first `MAX_COMMAND_SIZE` bytes, cut at the first NUL byte, are a non-empty string equal to
`QUIT_COMMAND` (for a line of at most `MAX_COMMAND_SIZE` bytes without NUL and a non-empty
sentinel without NUL: the line equal to `QUIT_COMMAND`); after the earlier lines the loop is
back at its top with the flag unset and `exit_code` 0, and `main` returns 0 having read
nothing after that line.  Datagram: `main` returns 0 at the first message equal to
`QUIT_COMMAND`, having received nothing after it. -/
theorem quit_at_first_sentinel (MAX : Nat) (QUIT : List Nat) (before : List (List Nat))
    (q : List Nat) (rest : List FifoServer.ReadEvent) (w : FifoServer.World)
    (SQUIT : List Nat) (messages : List (List Nat)) (srest : List SocketServer.ReceiveEvent)
    (sw : SocketServer.World)
    (hbefore : ∀ l ∈ before, (∀ b ∈ l, b ≠ 10) ∧ FifoServer.is_quit MAX QUIT l = false)
    (hq : (∀ b ∈ q, b ≠ 10) ∧ FifoServer.is_quit MAX QUIT q = true)
    (hflag : w.quit_app = false) (hmk : 0 ≤ w.mkfifo_ret)
    (hreads : w.reads = FifoServer.line_events (before ++ [q]) ++ rest)
    (hmessages : ∀ m ∈ messages, m ≠ SQUIT)
    (hsflag : sw.quit_app = false) (hsock : sw.socket_error = none)
    (hreceives : sw.receives = SocketServer.message_events (messages ++ [SQUIT]) ++ srest) :
    (∀ fuel : Nat,
      FifoServer.command_loop MAX QUIT w.open_ret (fuel + before.length) 0 w.started
        = FifoServer.command_loop MAX QUIT w.open_ret fuel 0
            { w.started with
              reads := FifoServer.line_events [q] ++ rest,
              trace := w.started.trace ++ FifoServer.session_calls MAX w.open_ret before }) ∧
    FifoServer.main MAX QUIT w
      = (FifoServer.Outcome.returned 0,
          { w with reads := rest, quit_app := true,
                   trace := w.trace ++ FifoServer.startup w.open_ret
                     ++ FifoServer.session_calls MAX w.open_ret (before ++ [q])
                     ++ [FifoServer.Call.stop_alarm, FifoServer.Call.unlink,
                         FifoServer.Call.close w.open_ret] }) ∧
    (∀ l : List Nat, l.length ≤ MAX → 0 ∉ l → QUIT ≠ [] → 0 ∉ QUIT →
      (FifoServer.is_quit MAX QUIT l = true ↔ l = QUIT)) ∧
    SocketServer.main SQUIT sw
      = (SocketServer.Outcome.returned 0,
          { sw with receives := srest, quit_app := true,
                    trace := sw.trace
                      ++ [SocketServer.Call.socket_t, SocketServer.Call.setup_signals,
                          SocketServer.Call.start_alarm]
                      ++ List.replicate (messages.length + 1) SocketServer.Call.receive
                      ++ [SocketServer.Call.stop_alarm] }) := by
  refine ⟨?_, ?_, ?_, ?_⟩
  · intro fuel
    exact FifoServer.command_loop_session MAX QUIT w.open_ret
      (FifoServer.line_events [q] ++ rest) before w.started fuel hbefore hflag
      (by rw [FifoServer.started_reads, hreads, FifoServer.line_events_append,
            List.append_assoc])
  · exact FifoServer.fifo_main_session MAX QUIT before q rest w hbefore hq hflag hmk hreads
  · intro l hlen hl hne hQ
    exact FifoServer.is_quit_iff MAX QUIT l hlen hl hne hQ
  · exact SocketServer.socket_main_session SQUIT srest messages sw hmessages hsflag hsock hreceives

/-- Witness of C2: the lines `PING`, an empty line and `QUITX`, then `QUIT`, on the Fifo
backend; the message `PING` then `QUIT` on the Datagram backend. -/
theorem quit_at_first_sentinel_witness :
    FifoServer.main 63 [81, 85, 73, 84]
        (FifoServer.sample (FifoServer.line_events
          ([[80, 73, 78, 71], [], [81, 85, 73, 84, 88]] ++ [[81, 85, 73, 84]])
          ++ FifoServer.byte_events [65])) 
      = (FifoServer.Outcome.returned 0,
          { FifoServer.sample (FifoServer.line_events
              ([[80, 73, 78, 71], [], [81, 85, 73, 84, 88]] ++ [[81, 85, 73, 84]])
              ++ FifoServer.byte_events [65]) with
            reads := FifoServer.byte_events [65], quit_app := true,
            trace := (FifoServer.sample (FifoServer.line_events
                ([[80, 73, 78, 71], [], [81, 85, 73, 84, 88]] ++ [[81, 85, 73, 84]])
                ++ FifoServer.byte_events [65])).trace
              ++ FifoServer.startup (FifoServer.sample (FifoServer.line_events
                ([[80, 73, 78, 71], [], [81, 85, 73, 84, 88]] ++ [[81, 85, 73, 84]])
                ++ FifoServer.byte_events [65])).open_ret
              ++ FifoServer.session_calls 63 (FifoServer.sample (FifoServer.line_events
                ([[80, 73, 78, 71], [], [81, 85, 73, 84, 88]] ++ [[81, 85, 73, 84]])
                ++ FifoServer.byte_events [65])).open_ret
                ([[80, 73, 78, 71], [], [81, 85, 73, 84, 88]] ++ [[81, 85, 73, 84]])
              ++ [FifoServer.Call.stop_alarm, FifoServer.Call.unlink,
                  FifoServer.Call.close (FifoServer.sample (FifoServer.line_events
                    ([[80, 73, 78, 71], [], [81, 85, 73, 84, 88]] ++ [[81, 85, 73, 84]])
                    ++ FifoServer.byte_events [65])).open_ret] }) ∧
    SocketServer.main [81, 85, 73, 84]
        (SocketServer.sample (SocketServer.message_events
          ([[80, 73, 78, 71]] ++ [[81, 85, 73, 84]]) ++ []))
      = (SocketServer.Outcome.returned 0,
          { SocketServer.sample (SocketServer.message_events
              ([[80, 73, 78, 71]] ++ [[81, 85, 73, 84]]) ++ []) with
            receives := [], quit_app := true,
            trace := (SocketServer.sample (SocketServer.message_events
                ([[80, 73, 78, 71]] ++ [[81, 85, 73, 84]]) ++ [])).trace
              ++ [SocketServer.Call.socket_t, SocketServer.Call.setup_signals,
                  SocketServer.Call.start_alarm]
              ++ List.replicate ([[80, 73, 78, 71]].length + 1) SocketServer.Call.receive
              ++ [SocketServer.Call.stop_alarm] }) :=
  ⟨(quit_at_first_sentinel 63 [81, 85, 73, 84] [[80, 73, 78, 71], [], [81, 85, 73, 84, 88]]
      [81, 85, 73, 84] (FifoServer.byte_events [65])
      (FifoServer.sample (FifoServer.line_events
        ([[80, 73, 78, 71], [], [81, 85, 73, 84, 88]] ++ [[81, 85, 73, 84]])
        ++ FifoServer.byte_events [65]))
      [81, 85, 73, 84] [[80, 73, 78, 71]] []
      (SocketServer.sample (SocketServer.message_events
        ([[80, 73, 78, 71]] ++ [[81, 85, 73, 84]]) ++ []))
      (by decide) (by decide) rfl (by decide) rfl (by decide) rfl rfl rfl).2.1,
   (quit_at_first_sentinel 63 [81, 85, 73, 84] [[80, 73, 78, 71], [], [81, 85, 73, 84, 88]]
      [81, 85, 73, 84] (FifoServer.byte_events [65])
      (FifoServer.sample (FifoServer.line_events
        ([[80, 73, 78, 71], [], [81, 85, 73, 84, 88]] ++ [[81, 85, 73, 84]])
        ++ FifoServer.byte_events [65]))
      [81, 85, 73, 84] [[80, 73, 78, 71]] []
      (SocketServer.sample (SocketServer.message_events
        ([[80, 73, 78, 71]] ++ [[81, 85, 73, 84]]) ++ []))
      (by decide) (by decide) rfl (by decide) rfl (by decide) rfl rfl rfl).2.2.2⟩
